import Mathlib

/-! Downscale orchestration of Elasticsearch StatefulSets.

A shallow embedding of `pkg/controller/elasticsearch/driver/downscale.go`.

* Replica counts are Go `int32` values. They are embedded as `Int`, and every
  arithmetic operation of the source (`a - b`, `x--`) goes through `wrap32`.
* A Go `error` is `Option Error` (`none` is `nil`); a Go `(T, error)` pair whose
  error is tested first is `Except Error T`.
* The collaborators (Kubernetes client, Elasticsearch client, shard lister,
  expectations, reconcile state) are fields of `downscaleContext`. Each answer may
  depend on the calls issued so far: the `World` is the chronological log of the
  mutating calls, and every function threads it explicitly.
-/

namespace Downscale

/-! ## Machine integers -/

/-- Go `int32` wrap-around: the int32 value of an operation whose exact result is `x`. -/
def wrap32 (x : Int) : Int := (x + 2147483648) % 4294967296 - 2147483648

/-- Go `a - b` on `int32` operands. -/
def sub32 (a b : Int) : Int := wrap32 (a - b)

/-- The values an `int32` variable can hold. -/
def isInt32 (x : Int) : Prop := -2147483648 ≤ x ∧ x < 2147483648

instance (x : Int) : Decidable (isInt32 x) := by
  unfold isInt32
  exact inferInstance

/-! ## Data model -/

/-- Errors of the collaborators. `apierrors.IsNotFound` tells `notFound` apart. -/
inductive Error where
  | notFound (what : String)
  | other (msg : String)
deriving DecidableEq, Repr

/-- The test `apierrors.IsNotFound(err)`. -/
def IsNotFound : Error → Bool
  | .notFound _ => true
  | .other _ => false

/-- The Elasticsearch resource `es`: only its namespaced name is used here. -/
structure Elasticsearch where
  Namespace : String
  Name : String
deriving DecidableEq, Repr

/-- The fields of `appsv1.StatefulSet` that the downscale code reads: the name, the replica
count (`Spec.Replicas`) and the master label of the pod template (see `TestSset.Build`). -/
structure StatefulSet where
  Name : String
  Replicas : Int
  Master : Bool
deriving DecidableEq, Repr

/-- The type `sset.StatefulSetList`. -/
abbrev StatefulSetList := List StatefulSet

/-- Modelled from the spec: `sset.GetReplicas` is absent from the sources; §3 calls it the
"current replica count" of the group. -/
def GetReplicas (statefulSet : StatefulSet) : Int := statefulSet.Replicas

/-- Modelled from the spec: `StatefulSetList.GetByName` is absent from the sources; §4.2
resolves the "matching expected group" by identity, and "no match" is `none`. -/
def GetByName (l : StatefulSetList) (ssetName : String) : Option StatefulSet :=
  l.find? (fun s => s.Name == ssetName)

/-- Modelled from the spec: `label.IsMasterNodeSet` is absent from the sources; §3 gives a
group the role flag "is-master-eligible". -/
def IsMasterNodeSet (statefulSet : StatefulSet) : Bool := statefulSet.Master

/-- Modelled from the spec: `sset.PodName` is absent from the sources; §3 speaks of
"ordinal-indexed member names": the name of the group followed by the ordinal. -/
def PodName (ssetName : String) (ordinal : Int) : String :=
  ssetName ++ "-" ++ toString ordinal

/-- Modelled from the spec: `nodespec.UpdateReplicas` is absent from the sources; §4.5
"applies the replica-count update to the group resource". -/
def UpdateReplicas (statefulSet : StatefulSet) (replicas : Int) : StatefulSet :=
  { statefulSet with Replicas := replicas }

/-- The struct `ssetDownscale`, with the field names of the composite literals in
`calculateDownscales`. -/
structure ssetDownscale where
  statefulSet : StatefulSet
  initialReplicas : Int
  targetReplicas : Int
  finalReplicas : Int
deriving DecidableEq, Repr

/-- Modelled from the spec: `ssetDownscale.isRemoval` is absent from the sources; §3:
"true iff `finalReplicas == 0 && initialReplicas > 0`". -/
def ssetDownscale.isRemoval (d : ssetDownscale) : Bool :=
  d.finalReplicas == 0 && decide (d.initialReplicas > 0)

/-- Modelled from the spec: `ssetDownscale.isReplicaDecrease` is absent from the sources; §3:
"true iff `targetReplicas < initialReplicas`". -/
def ssetDownscale.isReplicaDecrease (d : ssetDownscale) : Bool :=
  decide (d.targetReplicas < d.initialReplicas)

/-- The ordinals `initial - 1`, `initial - 2`, ... of `count` members, highest first. -/
def ordinalsDown (initial : Int) : Nat → List Int
  | 0 => []
  | count + 1 => (initial - 1) :: ordinalsDown (initial - 1) count

/-- The ordinals of the leaving members: `initialReplicas - 1` down to `targetReplicas`. -/
def ssetDownscale.leavingOrdinals (d : ssetDownscale) : List Int :=
  ordinalsDown d.initialReplicas (d.initialReplicas - d.targetReplicas).toNat

/-- Modelled from the spec: `ssetDownscale.leavingNodeNames` is absent from the sources; §3:
"the ordinal-indexed member names between `targetReplicas` and `initialReplicas` for a group,
always the highest ordinals first". -/
def ssetDownscale.leavingNodeNames (d : ssetDownscale) : List String :=
  d.leavingOrdinals.map (PodName d.statefulSet.Name)

/-- Modelled from the spec: the package function `leavingNodeNames` is absent from the
sources; §4.6: "the union of all leaving-node identities across groups". -/
def leavingNodeNames (downscales : List ssetDownscale) : List String :=
  downscales.flatMap ssetDownscale.leavingNodeNames

/-- Modelled from the spec: the struct `downscaleState` is absent from the sources; §3: it
"holds remaining removal budget and a running count of planned removals". -/
structure downscaleState where
  remainingBudget : Int
  plannedRemovals : Int
deriving DecidableEq, Repr

/-- Modelled from the spec: `downscaleState.getMaxNodesToRemove` is absent from the sources;
§4.1: it "returns `min(requested, remainingBudget)`". -/
def downscaleState.getMaxNodesToRemove (s : downscaleState) (requested : Int) : Int :=
  min requested s.remainingBudget

/-- Modelled from the spec: `downscaleState.recordRemoval` is absent from the sources; §4.1:
it "decrements remaining budget by `count`", and §3 keeps "a running count of planned
removals". Both are `int32` operations. -/
def downscaleState.recordRemoval (s : downscaleState) (_statefulSet : StatefulSet)
    (count : Int) : downscaleState :=
  { remainingBudget := sub32 s.remainingBudget count
    plannedRemovals := wrap32 (s.plannedRemovals + count) }

/-- Modelled from the spec: `reconciler.Results` is absent from the sources; §6: "an
aggregated result carrying `{error | nil, requeueRequested bool}`". -/
structure Results where
  errors : List Error
  requeue : Bool
deriving DecidableEq, Repr

/-- The call `results.WithError(err)`. -/
def Results.WithError (r : Results) (err : Error) : Results :=
  { r with errors := r.errors ++ [err] }

/-- The call `results.WithResult(defaultRequeue)`. -/
def Results.WithRequeue (r : Results) : Results :=
  { r with requeue := true }

/-! ## Collaborators -/

/-- A mutating call issued to a collaborator. -/
inductive Effect where
  /-- The call `k8sClient.Delete(&headlessSvc)`. -/
  | deleteHeadlessService (es : Elasticsearch) (ssetName : String)
  /-- The call `settings.DeleteConfig(k8sClient, es.Namespace, statefulSet.Name)`. -/
  | deleteConfig (ns : String) (ssetName : String)
  /-- The call `k8sClient.Delete(&statefulSet)`. -/
  | deleteStatefulSet (statefulSet : StatefulSet)
  /-- The call `k8sClient.Update(&downscale.statefulSet)`. -/
  | updateStatefulSet (statefulSet : StatefulSet)
  /-- The call `expectations.ExpectGeneration(downscale.statefulSet.ObjectMeta)`. -/
  | expectGeneration (ssetName : String)
  /-- The call `reconcileState.AddEvent(eventType, reason, message)`. -/
  | addEvent (eventType : String) (reason : String) (message : String)
  /-- The call `zen1.UpdateMinimumMasterNodesTo(es, c, esClient, minimumMasterNodes)`. -/
  | updateMinimumMasterNodes (es : Elasticsearch) (minimumMasterNodes : Int)
  /-- The call `zen2.AddToVotingConfigExclusions(c, esClient, es, excludeNodes)`. -/
  | addToVotingConfigExclusions (es : Elasticsearch) (excludeNodes : List String)
  /-- The call `reconcileState.UpdateElasticsearchMigrating(resourcesState, observedState)`. -/
  | updateElasticsearchMigrating
  /-- The call `migration.MigrateData(esClient, leavingNodes)`. -/
  | migrateData (leavingNodes : List String)
deriving DecidableEq, Repr

/-- The chronological log of the mutating calls issued so far. -/
abbrev World := List Effect

/-- The struct `downscaleContext` together with the behaviour of the collaborators it gives
access to. None of these functions is in the sources: each is an arbitrary answer, which may
depend on the calls issued so far. -/
structure downscaleContext where
  es : Elasticsearch
  /-- The answer of `k8sClient.Delete(&headlessSvc)`. -/
  deleteHeadlessService : World → Elasticsearch → String → Option Error
  /-- The answer of `settings.DeleteConfig`. -/
  deleteConfig : World → String → String → Option Error
  /-- The answer of `k8sClient.Delete(&statefulSet)`. -/
  deleteStatefulSet : World → StatefulSet → Option Error
  /-- The answer of `k8sClient.Update(&statefulSet)`. -/
  updateStatefulSet : World → StatefulSet → Option Error
  /-- The answer of `migration.IsMigratingData(ctx.shardLister, node, allLeavingNodes)`. -/
  IsMigratingData : World → String → List String → Except Error Bool
  /-- The answer of `zen1.AtLeastOneNodeCompatibleWithZen1(actualStatefulSets, c, es)`. -/
  AtLeastOneNodeCompatibleWithZen1 : World → StatefulSetList → Bool × Option Error
  /-- The answer of `sset.GetActualMastersForCluster(c, es)`: the master pods. -/
  GetActualMastersForCluster : World → List String × Option Error
  /-- The answer of `zen1.UpdateMinimumMasterNodesTo`. -/
  UpdateMinimumMasterNodesTo : World → Int → Option Error
  /-- The answer of `zen2.AddToVotingConfigExclusions`. -/
  AddToVotingConfigExclusions : World → List String → Option Error
  /-- The answer of `newDownscaleState(downscaleCtx.k8sClient, downscaleCtx.es)`. -/
  newDownscaleState : World → Except Error downscaleState
  /-- The answer of `migration.MigrateData(downscaleCtx.esClient, leavingNodes)`. -/
  MigrateData : World → List String → Option Error
  /-- The pluggable check `checkDownscaleInvariants(state, actualSset)` of §4.2. -/
  checkDownscaleInvariants : downscaleState → StatefulSet → Bool × String

/-! ## The functions of `downscale.go` -/

/-- The expected replicas of an actual StatefulSet in `calculateDownscales`: those of the
expected StatefulSet of the same name, or 0 when there is none (removal). -/
def expectedReplicasFor (expectedStatefulSets : StatefulSetList) (actualSset : StatefulSet) :
    Int :=
  match GetByName expectedStatefulSets actualSset.Name with
  | some expectedSset => GetReplicas expectedSset
  | none => 0

/-- The value of `toDelete` in `calculateDownscales`: the difference of the replicas, at most
one for a master StatefulSet, then clamped by the downscale state. -/
def toDeleteFor (state : downscaleState) (actualSset : StatefulSet) (expectedReplicas : Int) :
    Int :=
  let toDelete := sub32 (GetReplicas actualSset) expectedReplicas
  let toDelete := if IsMasterNodeSet actualSset = true ∧ toDelete > 0 then 1 else toDelete
  state.getMaxNodesToRemove toDelete

/-- The loop of `calculateDownscales` over the remaining actual StatefulSets. -/
def calculateDownscalesFrom
    (check : downscaleState → StatefulSet → Bool × String)
    (expectedStatefulSets : StatefulSetList) :
    downscaleState → StatefulSetList → List ssetDownscale
  | _, [] => []
  | state, actualSset :: rest =>
    let actualReplicas := GetReplicas actualSset
    let expectedReplicas := expectedReplicasFor expectedStatefulSets actualSset
    if expectedReplicas = 0 ∨ expectedReplicas < actualReplicas then
      if (check state actualSset).1 = false then
        calculateDownscalesFrom check expectedStatefulSets state rest
      else
        let toDelete := toDeleteFor state actualSset expectedReplicas
        { statefulSet := actualSset
          initialReplicas := actualReplicas
          targetReplicas := sub32 actualReplicas toDelete
          finalReplicas := expectedReplicas } ::
          calculateDownscalesFrom check expectedStatefulSets
            (state.recordRemoval actualSset toDelete) rest
    else
      calculateDownscalesFrom check expectedStatefulSets state rest

/-- The function `calculateDownscales`: compares expected and actual StatefulSets. -/
def calculateDownscales
    (check : downscaleState → StatefulSet → Bool × String)
    (state : downscaleState)
    (expectedStatefulSets : StatefulSetList) (actualStatefulSets : StatefulSetList) :
    List ssetDownscale :=
  calculateDownscalesFrom check expectedStatefulSets state actualStatefulSets

/-- The guard `err != nil && !apierrors.IsNotFound(err)`. -/
def isFatal : Option Error → Bool
  | some err => !IsNotFound err
  | none => false

/-- The function `removeStatefulSetResources`: deletes the headless service, the configuration
and then the StatefulSet. -/
def removeStatefulSetResources (ctx : downscaleContext) (statefulSet : StatefulSet)
    (w : World) : Option Error × World :=
  let err := ctx.deleteHeadlessService w ctx.es statefulSet.Name
  let w1 := w ++ [Effect.deleteHeadlessService ctx.es statefulSet.Name]
  if isFatal err then (err, w1)
  else
    let err := ctx.deleteConfig w1 ctx.es.Namespace statefulSet.Name
    let w2 := w1 ++ [Effect.deleteConfig ctx.es.Namespace statefulSet.Name]
    if isFatal err then (err, w2)
    else (ctx.deleteStatefulSet w2 statefulSet, w2 ++ [Effect.deleteStatefulSet statefulSet])

/-- The loop of `calculatePerformableDownscale` over the remaining leaving nodes. -/
def calculatePerformableDownscaleFrom (ctx : downscaleContext) (allLeavingNodes : List String)
    (w : World) : List String → ssetDownscale → (ssetDownscale × Option Error) × World
  | [], performableDownscale => ((performableDownscale, none), w)
  | node :: rest, performableDownscale =>
    match ctx.IsMigratingData w node allLeavingNodes with
    | .error err => ((performableDownscale, some err), w)
    | .ok true =>
      ((performableDownscale, none), w ++ [Effect.updateElasticsearchMigrating])
    | .ok false =>
      calculatePerformableDownscaleFrom ctx allLeavingNodes w rest
        { performableDownscale with
          targetReplicas := sub32 performableDownscale.targetReplicas 1 }

/-- The function `calculatePerformableDownscale`: starts from a target equal to the initial
replicas and lowers it by one for each leaving node whose data migration is over. -/
def calculatePerformableDownscale (ctx : downscaleContext) (downscale : ssetDownscale)
    (allLeavingNodes : List String) (w : World) :
    (ssetDownscale × Option Error) × World :=
  calculatePerformableDownscaleFrom ctx allLeavingNodes w downscale.leavingNodeNames
    { statefulSet := downscale.statefulSet
      initialReplicas := downscale.initialReplicas
      targetReplicas := downscale.initialReplicas
      finalReplicas := downscale.finalReplicas }

/-- The constant `v1.EventTypeWarning`. -/
def EventTypeWarning : String := "Warning"

/-- The constant `events.EventReasonUnhealthy`. -/
def EventReasonUnhealthy : String := "Unhealthy"

/-- The function `maybeUpdateZen1ForDownscale`. -/
def maybeUpdateZen1ForDownscale (ctx : downscaleContext)
    (actualStatefulSets : StatefulSetList) (w : World) : Option Error × World :=
  let compat := ctx.AtLeastOneNodeCompatibleWithZen1 w actualStatefulSets
  if !compat.1 || compat.2.isSome then (compat.2, w)
  else
    let masters := ctx.GetActualMastersForCluster w
    if masters.2.isSome then (masters.2, w)
    else if masters.1.length != 2 then (none, w)
    else
      let w1 := w ++ [Effect.addEvent EventTypeWarning EventReasonUnhealthy
        "Downscaling from 2 to 1 master nodes: unsafe operation"]
      (ctx.UpdateMinimumMasterNodesTo w1 1, w1 ++ [Effect.updateMinimumMasterNodes ctx.es 1])

/-- The function `updateZenSettingsForDownscale`. -/
def updateZenSettingsForDownscale (ctx : downscaleContext)
    (actualStatefulSets : StatefulSetList) (excludeNodes : List String) (w : World) :
    Option Error × World :=
  let r := maybeUpdateZen1ForDownscale ctx actualStatefulSets w
  if r.1.isSome then r
  else
    (ctx.AddToVotingConfigExclusions r.2 excludeNodes,
      r.2 ++ [Effect.addToVotingConfigExclusions ctx.es excludeNodes])

/-- The quorum step of `doDownscale`, taken only for a master StatefulSet. -/
def doDownscaleZen (ctx : downscaleContext) (downscale : ssetDownscale)
    (actualStatefulSets : StatefulSetList) (w : World) : Option Error × World :=
  if IsMasterNodeSet downscale.statefulSet then
    updateZenSettingsForDownscale ctx actualStatefulSets downscale.leavingNodeNames w
  else (none, w)

/-- The function `doDownscale`: updates the zen settings of a master StatefulSet, then the
replicas of the StatefulSet, then the expectations. -/
def doDownscale (ctx : downscaleContext) (downscale : ssetDownscale)
    (actualStatefulSets : StatefulSetList) (w : World) : Option Error × World :=
  let z := doDownscaleZen ctx downscale actualStatefulSets w
  if z.1.isSome then z
  else
    let updated := UpdateReplicas downscale.statefulSet downscale.targetReplicas
    let err := ctx.updateStatefulSet z.2 updated
    let w1 := z.2 ++ [Effect.updateStatefulSet updated]
    if err.isSome then (err, w1)
    else (none, w1 ++ [Effect.expectGeneration updated.Name])

/-- The function `attemptDownscale`: the result is the requeue flag and the error. -/
def attemptDownscale (ctx : downscaleContext) (downscale : ssetDownscale)
    (allLeavingNodes : List String) (statefulSets : StatefulSetList) (w : World) :
    (Bool × Option Error) × World :=
  if downscale.isRemoval then
    let r := removeStatefulSetResources ctx downscale.statefulSet w
    ((false, r.1), r.2)
  else if downscale.isReplicaDecrease then
    let p := calculatePerformableDownscale ctx downscale allLeavingNodes w
    if p.1.2.isSome then ((true, p.1.2), p.2)
    else if !p.1.1.isReplicaDecrease then ((true, none), p.2)
    else
      let shouldRequeue := p.1.1.targetReplicas != downscale.finalReplicas
      let r := doDownscale ctx p.1.1 statefulSets p.2
      ((shouldRequeue, r.1), r.2)
  else ((false, none), w)

/-- The `for` loop of `HandleDownscale` over the remaining planned downscales. -/
def attemptDownscales (ctx : downscaleContext) (leavingNodes : List String)
    (actualStatefulSets : StatefulSetList) :
    List ssetDownscale → Results → World → Results × World
  | [], results, w => (results, w)
  | downscale :: rest, results, w =>
    let r := attemptDownscale ctx downscale leavingNodes actualStatefulSets w
    match r.1.2 with
    | some err => (results.WithError err, r.2)
    | none =>
      attemptDownscales ctx leavingNodes actualStatefulSets rest
        (if r.1.1 then results.WithRequeue else results) r.2

/-- The function `HandleDownscale`. -/
def HandleDownscale (ctx : downscaleContext) (expectedStatefulSets : StatefulSetList)
    (actualStatefulSets : StatefulSetList) (w : World) : Results × World :=
  let results : Results := { errors := [], requeue := false }
  match ctx.newDownscaleState w with
  | .error err => (results.WithError err, w)
  | .ok state =>
    let downscales :=
      calculateDownscales ctx.checkDownscaleInvariants state expectedStatefulSets
        actualStatefulSets
    let leavingNodes := leavingNodeNames downscales
    let w1 := w ++ [Effect.migrateData leavingNodes]
    match ctx.MigrateData w leavingNodes with
    | some err => (results.WithError err, w1)
    | none => attemptDownscales ctx leavingNodes actualStatefulSets downscales results w1


/-- The test "the shard lister reports `node` as not migrating data". -/
def notMigrating (ctx : downscaleContext) (w : World) (allLeavingNodes : List String)
    (node : String) : Bool :=
  match ctx.IsMigratingData w node allLeavingNodes with
  | .ok false => true
  | _ => false

/-- The length of the longest prefix of the leaving nodes of `downscale`, walked highest
ordinal first, that the shard lister reports as not migrating data. -/
def evacuatedPrefix (ctx : downscaleContext) (w : World) (allLeavingNodes : List String)
    (downscale : ssetDownscale) : Nat :=
  (downscale.leavingNodeNames.takeWhile (notMigrating ctx w allLeavingNodes)).length

/-! ## Concrete collaborators, for the worked examples -/

/-- A context in which every collaborator succeeds, no member runs the legacy protocol, the
removal budget is `budget`, every invariant check passes and the shard lister answers
`migrating node`. -/
def fakeContext (budget : Int) (migrating : String → Bool) : downscaleContext :=
  { es := { Namespace := "ns", Name := "es" }
    deleteHeadlessService := fun _ _ _ => none
    deleteConfig := fun _ _ _ => none
    deleteStatefulSet := fun _ _ => none
    updateStatefulSet := fun _ _ => none
    IsMigratingData := fun _ node _ => Except.ok (migrating node)
    AtLeastOneNodeCompatibleWithZen1 := fun _ _ => (false, none)
    GetActualMastersForCluster := fun _ => ([], none)
    UpdateMinimumMasterNodesTo := fun _ _ => none
    AddToVotingConfigExclusions := fun _ _ => none
    newDownscaleState := fun _ => Except.ok { remainingBudget := budget, plannedRemovals := 0 }
    MigrateData := fun _ _ => none
    checkDownscaleInvariants := fun _ _ => (true, "") }

/-- A data StatefulSet `es-data` with the given replicas. -/
def dataSset (replicas : Int) : StatefulSet :=
  { Name := "es-data", Replicas := replicas, Master := false }

/-- A master StatefulSet `es-master` with the given replicas. -/
def masterSset (replicas : Int) : StatefulSet :=
  { Name := "es-master", Replicas := replicas, Master := true }

/-- The context `fakeContext` with a shard lister that fails on the node `es-data-3`. -/
def failingListerContext : downscaleContext :=
  { fakeContext 3 (fun _ => false) with
    IsMigratingData := fun _ node _ =>
      if node == "es-data-3" then Except.error (Error.other "shards unavailable")
      else Except.ok false }

/-- The context `fakeContext` in which a member runs the legacy protocol, there are two
master pods and updating the minimum master nodes fails. -/
def failingZen1Context : downscaleContext :=
  { fakeContext 3 (fun _ => false) with
    AtLeastOneNodeCompatibleWithZen1 := fun _ _ => (true, none)
    GetActualMastersForCluster := fun _ => (["es-master-0", "es-master-1"], none)
    UpdateMinimumMasterNodesTo := fun _ _ => some (Error.other "cluster unreachable") }

/-- The context `fakeContext` over a store that holds none of the resources any more: every
delete answers not-found. -/
def emptyStoreContext : downscaleContext :=
  { fakeContext 3 (fun _ => false) with
    deleteHeadlessService := fun _ _ ssetName => some (Error.notFound ssetName)
    deleteConfig := fun _ _ ssetName => some (Error.notFound ssetName)
    deleteStatefulSet := fun _ statefulSet => some (Error.notFound statefulSet.Name) }

/-- The test "this call is `k8sClient.Update` of a StatefulSet". -/
def Effect.isStatefulSetUpdate : Effect → Bool
  | .updateStatefulSet _ => true
  | _ => false

/-- The test "this call records an expectation". -/
def Effect.isExpectation : Effect → Bool
  | .expectGeneration _ => true
  | _ => false

/-- The 2 to 1 masters situation of `maybeUpdateZen1ForDownscale`: the legacy-protocol check
reports a compatible member without error, and the masters are listed without error and are
exactly 2. -/
def legacyTwoMasters (ctx : downscaleContext) (actualStatefulSets : StatefulSetList)
    (w : World) : Prop :=
  ctx.AtLeastOneNodeCompatibleWithZen1 w actualStatefulSets = (true, none) ∧
    (ctx.GetActualMastersForCluster w).2 = none ∧
    (ctx.GetActualMastersForCluster w).1.length = 2

/-- The warning event of `maybeUpdateZen1ForDownscale`. -/
def unsafeDownscaleEvent : Effect :=
  Effect.addEvent EventTypeWarning EventReasonUnhealthy
    "Downscaling from 2 to 1 master nodes: unsafe operation"

/-- The context `fakeContext` over a store that holds the StatefulSet but neither its
headless service nor its configuration: these two deletes answer not-found. -/
def dependentsGoneContext : downscaleContext :=
  { fakeContext 3 (fun _ => false) with
    deleteHeadlessService := fun _ _ ssetName => some (Error.notFound ssetName)
    deleteConfig := fun _ _ ssetName => some (Error.notFound ssetName) }

/-- The context `dependentsGoneContext` in which deleting the configuration fails with an
error that is not a not-found. -/
def failingConfigContext : downscaleContext :=
  { dependentsGoneContext with
    deleteConfig := fun _ _ _ => some (Error.other "forbidden") }

/-- An ingest StatefulSet `es-ingest` with the given replicas. -/
def ingestSset (replicas : Int) : StatefulSet :=
  { Name := "es-ingest", Replicas := replicas, Master := false }

/-- The context `fakeContext` with a budget of 3 in which updating the StatefulSet `es-data`
fails. -/
def failingUpdateContext : downscaleContext :=
  { fakeContext 3 (fun _ => false) with
    updateStatefulSet := fun _ statefulSet =>
      if statefulSet.Name == "es-data" then some (Error.other "conflict") else none }

/-- The context `fakeContext` over a store that really deletes: a delete succeeds the first
time and answers not-found once the same delete was issued before. -/
def deletingStoreContext : downscaleContext :=
  { fakeContext 3 (fun _ => false) with
    deleteHeadlessService := fun w es ssetName =>
      if Effect.deleteHeadlessService es ssetName ∈ w then some (Error.notFound ssetName)
      else none
    deleteConfig := fun w ns ssetName =>
      if Effect.deleteConfig ns ssetName ∈ w then some (Error.notFound ssetName) else none
    deleteStatefulSet := fun w statefulSet =>
      if Effect.deleteStatefulSet statefulSet ∈ w then some (Error.notFound statefulSet.Name)
      else none }

/-! ## Theorems -/

theorem wrap32_eq_self (x : Int) (h : isInt32 x) : wrap32 x = x := by
  unfold isInt32 at h
  unfold wrap32
  omega

theorem isInt32_wrap32 (x : Int) : isInt32 (wrap32 x) := by
  unfold isInt32 wrap32
  omega

theorem length_ordinalsDown (count : Nat) : ∀ initial : Int,
    (ordinalsDown initial count).length = count := by
  induction count with
  | zero => intro _; rfl
  | succ n ih => intro initial; simp [ordinalsDown, ih]

theorem length_leavingNodeNames (d : ssetDownscale) :
    d.leavingNodeNames.length = (d.initialReplicas - d.targetReplicas).toNat := by
  simp [ssetDownscale.leavingNodeNames, ssetDownscale.leavingOrdinals, length_ordinalsDown]

/-- The loop of `calculatePerformableDownscale` under an error-free shard lister: the target
is lowered once for each node of the longest not-migrating prefix, and no error is returned. -/
theorem calculatePerformableDownscaleFrom_ok (ctx : downscaleContext)
    (allLeavingNodes : List String) (w : World) :
    ∀ (nodes : List String) (q : ssetDownscale),
      (∀ node ∈ nodes, ∃ b, ctx.IsMigratingData w node allLeavingNodes = Except.ok b) →
      isInt32 q.targetReplicas →
      -2147483648 ≤
        q.targetReplicas - ((nodes.takeWhile (notMigrating ctx w allLeavingNodes)).length : Int) →
      (calculatePerformableDownscaleFrom ctx allLeavingNodes w nodes q).1 =
        ({ q with targetReplicas :=
            q.targetReplicas -
              ((nodes.takeWhile (notMigrating ctx w allLeavingNodes)).length : Int) }, none) := by
  intro nodes
  induction nodes with
  | nil => intro q _ _ _; simp [calculatePerformableDownscaleFrom]
  | cons node rest ih =>
    intro q hok hq hlow
    obtain ⟨b, hb⟩ := hok node (List.mem_cons_self _ _)
    cases b with
    | true =>
      have hnm : notMigrating ctx w allLeavingNodes node = false := by
        simp [notMigrating, hb]
      simp [calculatePerformableDownscaleFrom, hb, List.takeWhile_cons, hnm]
    | false =>
      have hnm : notMigrating ctx w allLeavingNodes node = true := by
        simp [notMigrating, hb]
      simp only [List.takeWhile_cons, hnm, if_true, List.length_cons, Nat.cast_add,
        Nat.cast_one] at hlow ⊢
      have hsub : sub32 q.targetReplicas 1 = q.targetReplicas - 1 := by
        unfold sub32
        apply wrap32_eq_self
        unfold isInt32 at hq ⊢
        omega
      have hrec := ih { q with targetReplicas := q.targetReplicas - 1 }
        (fun n hn => hok n (List.mem_cons_of_mem _ hn))
        (by unfold isInt32 at hq ⊢; simp only; omega)
        (by simp only; omega)
      simp only [calculatePerformableDownscaleFrom, hb, hsub, hrec]
      congr 2
      omega

/-- C1. Under a shard lister that returns no error, `calculatePerformableDownscale` returns no
error and a downscale with the same StatefulSet, initial and final replicas, whose target is
the initial replicas minus the length of the longest prefix of the leaving nodes (highest
ordinal first) reported as not migrating; when the highest-ordinal leaving node is still
migrating the target equals the initial replicas, whatever the lister says of the others. -/
theorem calculatePerformableDownscale_target (ctx : downscaleContext)
    (downscale : ssetDownscale) (allLeavingNodes : List String) (w : World)
    (hinitial : isInt32 downscale.initialReplicas)
    (htarget : isInt32 downscale.targetReplicas)
    (hok : ∀ node, ∃ b, ctx.IsMigratingData w node allLeavingNodes = Except.ok b) :
    (calculatePerformableDownscale ctx downscale allLeavingNodes w).1 =
        ({ statefulSet := downscale.statefulSet
           initialReplicas := downscale.initialReplicas
           targetReplicas :=
             downscale.initialReplicas - (evacuatedPrefix ctx w allLeavingNodes downscale : Int)
           finalReplicas := downscale.finalReplicas }, none) ∧
      (∀ node rest, downscale.leavingNodeNames = node :: rest →
        ctx.IsMigratingData w node allLeavingNodes = Except.ok true →
        (calculatePerformableDownscale ctx downscale allLeavingNodes w).1.1.targetReplicas =
          downscale.initialReplicas) := by
  have hlen : (evacuatedPrefix ctx w allLeavingNodes downscale : Int) ≤
      ((downscale.initialReplicas - downscale.targetReplicas).toNat : Int) := by
    have h1 := (List.takeWhile_sublist (notMigrating ctx w allLeavingNodes)
      (l := downscale.leavingNodeNames)).length_le
    rw [length_leavingNodeNames] at h1
    unfold evacuatedPrefix
    exact_mod_cast h1
  have hmain := calculatePerformableDownscaleFrom_ok ctx allLeavingNodes w
    downscale.leavingNodeNames
    { statefulSet := downscale.statefulSet
      initialReplicas := downscale.initialReplicas
      targetReplicas := downscale.initialReplicas
      finalReplicas := downscale.finalReplicas }
    (fun n _ => hok n) hinitial
    (by
      unfold evacuatedPrefix at hlen
      unfold isInt32 at hinitial htarget
      simp only
      omega)
  refine ⟨hmain, ?_⟩
  intro node rest hnodes hmig
  unfold calculatePerformableDownscale
  rw [hmain]
  have hnm : notMigrating ctx w allLeavingNodes node = false := by
    simp [notMigrating, hmig]
  simp [hnodes, List.takeWhile_cons, hnm]

/-- Worked example for C1: `es-data` goes from 5 to 2 replicas, `es-data-4` is evacuated and
`es-data-3` is still migrating, so the performable target is 4. -/
theorem calculatePerformableDownscale_target_witness :
    (calculatePerformableDownscale (fakeContext 3 (fun node => node == "es-data-3"))
        { statefulSet := dataSset 5, initialReplicas := 5, targetReplicas := 2,
          finalReplicas := 2 } [] []).1 =
      ({ statefulSet := dataSset 5, initialReplicas := 5, targetReplicas := 4,
         finalReplicas := 2 }, none) := by
  have h := (calculatePerformableDownscale_target
    (fakeContext 3 (fun node => node == "es-data-3"))
    { statefulSet := dataSset 5, initialReplicas := 5, targetReplicas := 2, finalReplicas := 2 }
    [] [] (by decide) (by decide) (fun node => ⟨node == "es-data-3", rfl⟩)).1
  have hp : evacuatedPrefix (fakeContext 3 (fun node => node == "es-data-3")) [] []
      { statefulSet := dataSset 5, initialReplicas := 5, targetReplicas := 2,
        finalReplicas := 2 } = 1 := by decide
  rw [hp] at h
  exact h

/-- C2, at a failing input. The StatefulSet `es-data` has 3 replicas and is to be removed
(final replicas 0), and the shard lister reports every node as still migrating data: the
removal branch of `attemptDownscale` deletes the StatefulSet, hence its 3 nodes, without an
error and without a requeue. -/
theorem attemptDownscale_removal_deletes_migrating_nodes :
    (∀ node allLeavingNodes,
        (fakeContext 3 (fun _ => true)).IsMigratingData [] node allLeavingNodes =
          Except.ok true) ∧
      calculateDownscales (fakeContext 3 (fun _ => true)).checkDownscaleInvariants
          { remainingBudget := 3, plannedRemovals := 0 } [] [dataSset 3] =
        [{ statefulSet := dataSset 3, initialReplicas := 3, targetReplicas := 0,
           finalReplicas := 0 }] ∧
      attemptDownscale (fakeContext 3 (fun _ => true))
          { statefulSet := dataSset 3, initialReplicas := 3, targetReplicas := 0,
            finalReplicas := 0 }
          ["es-data-2", "es-data-1", "es-data-0"] [dataSset 3] [] =
        ((false, none),
          [Effect.deleteHeadlessService { Namespace := "ns", Name := "es" } "es-data",
           Effect.deleteConfig "ns" "es-data",
           Effect.deleteStatefulSet (dataSset 3)]) := by
  refine ⟨fun _ _ => rfl, by decide, by decide⟩

/-- Every downscale emitted by the loop of `calculateDownscales` is built from one of the
actual StatefulSets and from a downscale state that satisfies any invariant `Inv` that the
initial state satisfies and that `recordRemoval` preserves. -/
theorem mem_calculateDownscalesFrom
    (check : downscaleState → StatefulSet → Bool × String)
    (expectedStatefulSets : StatefulSetList) (Inv : downscaleState → Prop) :
    ∀ (actualStatefulSets : StatefulSetList) (state : downscaleState),
      Inv state →
      (∀ st, ∀ a ∈ actualStatefulSets, Inv st →
        (expectedReplicasFor expectedStatefulSets a = 0 ∨
          expectedReplicasFor expectedStatefulSets a < GetReplicas a) →
        Inv (st.recordRemoval a
          (toDeleteFor st a (expectedReplicasFor expectedStatefulSets a)))) →
      ∀ d ∈ calculateDownscalesFrom check expectedStatefulSets state actualStatefulSets,
        ∃ st, ∃ a ∈ actualStatefulSets, Inv st ∧
          (expectedReplicasFor expectedStatefulSets a = 0 ∨
            expectedReplicasFor expectedStatefulSets a < GetReplicas a) ∧
          d = { statefulSet := a
                initialReplicas := GetReplicas a
                targetReplicas := sub32 (GetReplicas a)
                  (toDeleteFor st a (expectedReplicasFor expectedStatefulSets a))
                finalReplicas := expectedReplicasFor expectedStatefulSets a } := by
  intro actualStatefulSets
  induction actualStatefulSets with
  | nil => intro state _ _ d hd; simp [calculateDownscalesFrom] at hd
  | cons a rest ih =>
    intro state hinv hpres d hd
    have hrest : ∀ st, Inv st →
        ∀ d ∈ calculateDownscalesFrom check expectedStatefulSets st rest,
        ∃ st, ∃ a0 ∈ a :: rest, Inv st ∧
          (expectedReplicasFor expectedStatefulSets a0 = 0 ∨
            expectedReplicasFor expectedStatefulSets a0 < GetReplicas a0) ∧
          d = { statefulSet := a0
                initialReplicas := GetReplicas a0
                targetReplicas := sub32 (GetReplicas a0)
                  (toDeleteFor st a0 (expectedReplicasFor expectedStatefulSets a0))
                finalReplicas := expectedReplicasFor expectedStatefulSets a0 } := by
      intro st hst d0 hd0
      obtain ⟨st1, a1, ha1, h1, h2, h3⟩ := ih st hst
        (fun st2 a2 ha2 => hpres st2 a2 (List.mem_cons_of_mem _ ha2)) d0 hd0
      exact ⟨st1, a1, List.mem_cons_of_mem _ ha1, h1, h2, h3⟩
    unfold calculateDownscalesFrom at hd
    simp only at hd
    split at hd
    · rename_i hcond
      split at hd
      · exact hrest state hinv d hd
      · rcases List.mem_cons.mp hd with hd | hd
        · exact ⟨state, a, List.mem_cons_self _ _, hinv, hcond, hd⟩
        · exact hrest _ (hpres state a (List.mem_cons_self _ _) hinv hcond) d hd
    · exact hrest state hinv d hd

/-- C3. Each downscale that `calculateDownscales` emits for a master StatefulSet removes at
most one replica: the `int32` difference `initialReplicas - targetReplicas` is at most 1,
whatever the requested delta and the budget (full removal, final replicas 0, included); it is
the exact difference whenever that difference is an `int32`. -/
theorem calculateDownscales_master_one_removal
    (check : downscaleState → StatefulSet → Bool × String) (state : downscaleState)
    (expectedStatefulSets actualStatefulSets : StatefulSetList)
    (hbudget : isInt32 state.remainingBudget)
    (d : ssetDownscale)
    (hd : d ∈ calculateDownscales check state expectedStatefulSets actualStatefulSets)
    (hmaster : IsMasterNodeSet d.statefulSet = true) :
    sub32 d.initialReplicas d.targetReplicas ≤ 1 ∧
      (isInt32 (d.initialReplicas - d.targetReplicas) →
        d.initialReplicas - d.targetReplicas ≤ 1) := by
  obtain ⟨st, a, _, hst, _, rfl⟩ := mem_calculateDownscalesFrom check expectedStatefulSets
    (fun st => isInt32 st.remainingBudget) actualStatefulSets state hbudget
    (fun st a _ _ _ => by
      simp only [downscaleState.recordRemoval, sub32]
      exact isInt32_wrap32 _) d hd
  simp only at hmaster
  have hle : toDeleteFor st a (expectedReplicasFor expectedStatefulSets a) ≤ 1 ∧
      isInt32 (toDeleteFor st a (expectedReplicasFor expectedStatefulSets a)) := by
    have hw := isInt32_wrap32 (GetReplicas a - expectedReplicasFor expectedStatefulSets a)
    simp only [toDeleteFor, downscaleState.getMaxNodesToRemove, hmaster, true_and, sub32]
    unfold isInt32 at hst hw ⊢
    split <;> omega
  have hkey : sub32 (GetReplicas a)
        (sub32 (GetReplicas a) (toDeleteFor st a (expectedReplicasFor expectedStatefulSets a))) =
      toDeleteFor st a (expectedReplicasFor expectedStatefulSets a) := by
    have h2 := hle.2
    unfold isInt32 at h2
    simp only [sub32, wrap32]
    omega
  refine ⟨by simp only [hkey]; exact hle.1, ?_⟩
  intro hin
  simp only at hin ⊢
  have hexact := wrap32_eq_self _ hin
  have h1 := hle.1
  simp only [sub32] at hkey hexact ⊢
  omega

/-- Worked example for C3: the masters are to go from 5 to 1 replicas with a budget of 10,
and the planned downscale goes from 5 to 4. -/
theorem calculateDownscales_master_one_removal_witness :
    ({ statefulSet := masterSset 5, initialReplicas := 5, targetReplicas := 4,
       finalReplicas := 1 } : ssetDownscale) ∈
        calculateDownscales (fun _ _ => (true, ""))
          { remainingBudget := 10, plannedRemovals := 0 } [masterSset 1] [masterSset 5] ∧
      (sub32 5 4 ≤ 1 ∧ (isInt32 (5 - 4) → (5 : Int) - 4 ≤ 1)) :=
  ⟨by decide,
    calculateDownscales_master_one_removal (fun _ _ => (true, ""))
      { remainingBudget := 10, plannedRemovals := 0 } [masterSset 1] [masterSset 5]
      (by decide)
      { statefulSet := masterSset 5, initialReplicas := 5, targetReplicas := 4,
        finalReplicas := 1 }
      (by decide) rfl⟩

theorem expectedReplicasFor_bounds (expectedStatefulSets : StatefulSetList)
    (hexpected : ∀ e ∈ expectedStatefulSets, 0 ≤ GetReplicas e ∧ isInt32 (GetReplicas e))
    (a : StatefulSet) :
    0 ≤ expectedReplicasFor expectedStatefulSets a ∧
      isInt32 (expectedReplicasFor expectedStatefulSets a) := by
  unfold expectedReplicasFor
  split
  · rename_i e he
    exact hexpected e (List.mem_of_find?_eq_some he)
  · exact ⟨le_refl _, by decide⟩

/-- On non-negative `int32` replica counts and a non-negative budget, the value of `toDelete`
is between 0 and both the requested difference and the remaining budget. -/
theorem toDeleteFor_bounds (st : downscaleState) (a : StatefulSet) (e : Int)
    (ha : 0 ≤ GetReplicas a ∧ isInt32 (GetReplicas a)) (he : 0 ≤ e ∧ isInt32 e)
    (hcond : e = 0 ∨ e < GetReplicas a) (hst : 0 ≤ st.remainingBudget) :
    0 ≤ toDeleteFor st a e ∧ toDeleteFor st a e ≤ GetReplicas a - e ∧
      toDeleteFor st a e ≤ st.remainingBudget := by
  have h1 := ha.2
  have h2 := he.2
  unfold isInt32 at h1 h2
  have hsub : sub32 (GetReplicas a) e = GetReplicas a - e := by
    unfold sub32
    apply wrap32_eq_self
    unfold isInt32
    omega
  simp only [toDeleteFor, downscaleState.getMaxNodesToRemove, hsub]
  split <;> omega

/-- C4. On non-negative replica counts and a non-negative remaining budget, each downscale
emitted by `calculateDownscales` satisfies `finalReplicas ≤ targetReplicas ≤ initialReplicas`,
so the number of leaving nodes `initialReplicas - targetReplicas` never exceeds
`initialReplicas - finalReplicas`. -/
theorem calculateDownscales_target_bounds
    (check : downscaleState → StatefulSet → Bool × String) (state : downscaleState)
    (expectedStatefulSets actualStatefulSets : StatefulSetList)
    (hbudget : 0 ≤ state.remainingBudget ∧ isInt32 state.remainingBudget)
    (hactual : ∀ a ∈ actualStatefulSets, 0 ≤ GetReplicas a ∧ isInt32 (GetReplicas a))
    (hexpected : ∀ e ∈ expectedStatefulSets, 0 ≤ GetReplicas e ∧ isInt32 (GetReplicas e))
    (d : ssetDownscale)
    (hd : d ∈ calculateDownscales check state expectedStatefulSets actualStatefulSets) :
    d.finalReplicas ≤ d.targetReplicas ∧ d.targetReplicas ≤ d.initialReplicas ∧
      d.initialReplicas - d.targetReplicas ≤ d.initialReplicas - d.finalReplicas ∧
      d.leavingNodeNames.length ≤ (d.initialReplicas - d.finalReplicas).toNat := by
  obtain ⟨st, a, ha, hst, hcond, rfl⟩ := mem_calculateDownscalesFrom check expectedStatefulSets
    (fun st => 0 ≤ st.remainingBudget ∧ isInt32 st.remainingBudget)
    actualStatefulSets state hbudget
    (fun st a ha hst hcond => by
      have hb := toDeleteFor_bounds st a (expectedReplicasFor expectedStatefulSets a)
        (hactual a ha) (expectedReplicasFor_bounds expectedStatefulSets hexpected a) hcond hst.1
      have h2 := hst.2
      have hsub : sub32 st.remainingBudget
          (toDeleteFor st a (expectedReplicasFor expectedStatefulSets a)) =
          st.remainingBudget - toDeleteFor st a (expectedReplicasFor expectedStatefulSets a) := by
        unfold sub32
        apply wrap32_eq_self
        unfold isInt32 at h2 ⊢
        omega
      simp only [downscaleState.recordRemoval, hsub]
      unfold isInt32 at h2 ⊢
      omega) d hd
  have hb := toDeleteFor_bounds st a (expectedReplicasFor expectedStatefulSets a)
    (hactual a ha) (expectedReplicasFor_bounds expectedStatefulSets hexpected a) hcond hst.1
  have he := expectedReplicasFor_bounds expectedStatefulSets hexpected a
  have h1 := (hactual a ha).2
  have h0 := (hactual a ha).1
  have hsub : sub32 (GetReplicas a)
      (toDeleteFor st a (expectedReplicasFor expectedStatefulSets a)) =
      GetReplicas a - toDeleteFor st a (expectedReplicasFor expectedStatefulSets a) := by
    unfold sub32
    apply wrap32_eq_self
    unfold isInt32 at h1 ⊢
    omega
  rw [length_leavingNodeNames]
  simp only [hsub]
  omega

/-- Worked example for C4: with a budget of 2, a data StatefulSet asked to go from 5 to 1
replicas is planned from 5 to 3. -/
theorem calculateDownscales_target_bounds_witness :
    ({ statefulSet := dataSset 5, initialReplicas := 5, targetReplicas := 3,
       finalReplicas := 1 } : ssetDownscale) ∈
        calculateDownscales (fun _ _ => (true, ""))
          { remainingBudget := 2, plannedRemovals := 0 } [dataSset 1] [dataSset 5] ∧
      ((1 : Int) ≤ 3 ∧ (3 : Int) ≤ 5 ∧ (5 : Int) - 3 ≤ 5 - 1 ∧
        (ssetDownscale.leavingNodeNames
          { statefulSet := dataSset 5, initialReplicas := 5, targetReplicas := 3,
            finalReplicas := 1 }).length ≤ ((5 : Int) - 1).toNat) :=
  ⟨by decide,
    calculateDownscales_target_bounds (fun _ _ => (true, ""))
      { remainingBudget := 2, plannedRemovals := 0 } [dataSset 1] [dataSset 5]
      (by decide) (by decide) (by decide)
      { statefulSet := dataSset 5, initialReplicas := 5, targetReplicas := 3,
        finalReplicas := 1 }
      (by decide)⟩

/-- C5, at a failing input. The budget is 0 and `es-data` is to go from 5 to 2 replicas:
`calculateDownscales` plans 0 removals (target 5), `attemptDownscale` on that operation falls
to its default branch and returns no requeue, and the whole pass of `HandleDownscale` ends
with neither an error nor a requeue, whatever the shard lister answers. -/
theorem HandleDownscale_zero_budget_no_requeue (migrating : String → Bool) (w : World) :
    calculateDownscales (fakeContext 0 migrating).checkDownscaleInvariants
        { remainingBudget := 0, plannedRemovals := 0 } [dataSset 2] [dataSset 5] =
      [{ statefulSet := dataSset 5, initialReplicas := 5, targetReplicas := 5,
         finalReplicas := 2 }] ∧
    attemptDownscale (fakeContext 0 migrating)
        { statefulSet := dataSset 5, initialReplicas := 5, targetReplicas := 5,
          finalReplicas := 2 } [] [dataSset 5] w = ((false, none), w) ∧
    HandleDownscale (fakeContext 0 migrating) [dataSset 2] [dataSset 5] w =
      ({ errors := [], requeue := false }, w ++ [Effect.migrateData []]) := by
  have hplan : calculateDownscales (fakeContext 0 migrating).checkDownscaleInvariants
        { remainingBudget := 0, plannedRemovals := 0 } [dataSset 2] [dataSset 5] =
      [{ statefulSet := dataSset 5, initialReplicas := 5, targetReplicas := 5,
         finalReplicas := 2 }] := by
    show calculateDownscales (fun _ _ => (true, "")) _ _ _ = _
    decide
  have hattempt : ∀ w0 : World, attemptDownscale (fakeContext 0 migrating)
        { statefulSet := dataSset 5, initialReplicas := 5, targetReplicas := 5,
          finalReplicas := 2 } [] [dataSset 5] w0 = ((false, none), w0) := by
    intro w0
    simp [attemptDownscale, ssetDownscale.isRemoval, ssetDownscale.isReplicaDecrease]
  refine ⟨hplan, hattempt w, ?_⟩
  have hleaving : leavingNodeNames
      [({ statefulSet := dataSset 5, initialReplicas := 5, targetReplicas := 5,
          finalReplicas := 2 } : ssetDownscale)] = [] := by decide
  have hstate : (fakeContext 0 migrating).newDownscaleState w =
      Except.ok { remainingBudget := 0, plannedRemovals := 0 } := rfl
  have hmigrate : (fakeContext 0 migrating).MigrateData w [] = none := rfl
  simp only [HandleDownscale, hstate, hplan, hleaving, hmigrate, attemptDownscales, hattempt]
  rfl

/-- C6, refuted as stated: the actual StatefulSet `es-data` has 0 replicas and so has the
expected StatefulSet of the same name, yet the plan of `calculateDownscales` is not empty. -/
theorem calculateDownscales_equal_zero_replicas_nonempty :
    ¬ (∀ (check : downscaleState → StatefulSet → Bool × String) (state : downscaleState)
        (expectedStatefulSets actualStatefulSets : StatefulSetList),
        (∀ a ∈ actualStatefulSets, ∃ e, GetByName expectedStatefulSets a.Name = some e ∧
          GetReplicas e = GetReplicas a) →
        calculateDownscales check state expectedStatefulSets actualStatefulSets = []) := by
  intro h
  have h0 := h (fun _ _ => (true, "")) { remainingBudget := 1, plannedRemovals := 0 }
    [dataSset 0] [dataSset 0] (by decide)
  revert h0
  decide

/-- When every actual StatefulSet has the replicas of the expected StatefulSet of its name, and
these are not 0, the loop of `calculateDownscales` emits nothing. -/
theorem calculateDownscalesFrom_equal_replicas
    (check : downscaleState → StatefulSet → Bool × String)
    (expectedStatefulSets : StatefulSetList) :
    ∀ (actualStatefulSets : StatefulSetList) (state : downscaleState),
      (∀ a ∈ actualStatefulSets, ∃ e, GetByName expectedStatefulSets a.Name = some e ∧
        GetReplicas e = GetReplicas a ∧ GetReplicas a ≠ 0) →
      calculateDownscalesFrom check expectedStatefulSets state actualStatefulSets = [] := by
  intro actualStatefulSets
  induction actualStatefulSets with
  | nil => intro _ _; rfl
  | cons a rest ih =>
    intro state h
    obtain ⟨e, he, hrep, hne⟩ := h a (List.mem_cons_self _ _)
    have hexp : expectedReplicasFor expectedStatefulSets a = GetReplicas a := by
      simp [expectedReplicasFor, he, hrep]
    have hcond : ¬ (expectedReplicasFor expectedStatefulSets a = 0 ∨
        expectedReplicasFor expectedStatefulSets a < GetReplicas a) := by
      rw [hexp]
      omega
    unfold calculateDownscalesFrom
    simp only [hcond, if_false]
    exact ih state (fun a0 ha0 => h a0 (List.mem_cons_of_mem _ ha0))

/-- C6, amended. When each actual StatefulSet has a same-named expected StatefulSet with the
same replica count, and that count is not 0, `calculateDownscales` returns an empty plan, and
the pass of `HandleDownscale` requests no requeue and issues no call but, at most, the
migration-exclusion call with no leaving node: no StatefulSet is updated or deleted. -/
theorem HandleDownscale_equal_replicas_no_change (ctx : downscaleContext)
    (expectedStatefulSets actualStatefulSets : StatefulSetList) (w : World)
    (h : ∀ a ∈ actualStatefulSets, ∃ e, GetByName expectedStatefulSets a.Name = some e ∧
      GetReplicas e = GetReplicas a ∧ GetReplicas a ≠ 0) :
    (∀ check state,
        calculateDownscales check state expectedStatefulSets actualStatefulSets = []) ∧
      (HandleDownscale ctx expectedStatefulSets actualStatefulSets w).1.requeue = false ∧
      ((HandleDownscale ctx expectedStatefulSets actualStatefulSets w).2 = w ∨
        (HandleDownscale ctx expectedStatefulSets actualStatefulSets w).2 =
          w ++ [Effect.migrateData []]) := by
  have hplan : ∀ check state,
      calculateDownscales check state expectedStatefulSets actualStatefulSets = [] :=
    fun check state =>
      calculateDownscalesFrom_equal_replicas check expectedStatefulSets actualStatefulSets
        state h
  refine ⟨hplan, ?_⟩
  unfold HandleDownscale
  cases hstate : ctx.newDownscaleState w with
  | error err => simp [Results.WithError]
  | ok state =>
    simp only [hplan, leavingNodeNames, List.flatMap_nil]
    cases hmig : ctx.MigrateData w [] with
    | some err => simp [Results.WithError]
    | none => simp [attemptDownscales]

/-- Worked example for C6: `es-data` has 3 replicas, actual and expected. -/
theorem HandleDownscale_equal_replicas_no_change_witness :
    (∀ a ∈ [dataSset 3], ∃ e, GetByName [dataSset 3] a.Name = some e ∧
        GetReplicas e = GetReplicas a ∧ GetReplicas a ≠ 0) ∧
      ((∀ check state, calculateDownscales check state [dataSset 3] [dataSset 3] = []) ∧
        (HandleDownscale (fakeContext 1 (fun _ => false)) [dataSset 3] [dataSset 3]
          []).1.requeue = false ∧
        ((HandleDownscale (fakeContext 1 (fun _ => false)) [dataSset 3] [dataSset 3] []).2 =
            [] ∨
          (HandleDownscale (fakeContext 1 (fun _ => false)) [dataSset 3] [dataSset 3] []).2 =
            [] ++ [Effect.migrateData []])) :=
  have hyp : ∀ a ∈ [dataSset 3], ∃ e, GetByName [dataSset 3] a.Name = some e ∧
      GetReplicas e = GetReplicas a ∧ GetReplicas a ≠ 0 := by
    intro a ha
    rw [List.mem_singleton] at ha
    subst ha
    exact ⟨dataSset 3, by decide, rfl, by decide⟩
  ⟨hyp, HandleDownscale_equal_replicas_no_change (fakeContext 1 (fun _ => false))
    [dataSset 3] [dataSset 3] [] hyp⟩

/-- The loop of `calculatePerformableDownscale` when the shard lister fails on `node` after
having reported the nodes of `pre` as not migrating: the error is returned and no call has
been issued. -/
theorem calculatePerformableDownscaleFrom_error (ctx : downscaleContext)
    (allLeavingNodes : List String) (w : World) (node : String) (post : List String)
    (err : Error) (herr : ctx.IsMigratingData w node allLeavingNodes = Except.error err) :
    ∀ (pre : List String) (q : ssetDownscale),
      (∀ n ∈ pre, ctx.IsMigratingData w n allLeavingNodes = Except.ok false) →
      (calculatePerformableDownscaleFrom ctx allLeavingNodes w (pre ++ node :: post) q).1.2 =
          some err ∧
        (calculatePerformableDownscaleFrom ctx allLeavingNodes w (pre ++ node :: post) q).2 =
          w := by
  intro pre
  induction pre with
  | nil => intro q _; simp [calculatePerformableDownscaleFrom, herr]
  | cons n rest ih =>
    intro q hpre
    have hn := hpre n (List.mem_cons_self _ _)
    simp only [List.cons_append, calculatePerformableDownscaleFrom, hn]
    exact ih _ (fun m hm => hpre m (List.mem_cons_of_mem _ hm))

/-- C7. For a replica-decrease operation (not on the removal path, so that its leaving nodes
are queried), if the shard lister returns an error for a leaving node, after having reported
every higher-ordinal one as evacuated, `attemptDownscale` returns that error and issues no
call at all: no quorum setting is changed, no StatefulSet is updated and no expectation is
recorded. -/
theorem attemptDownscale_lister_error (ctx : downscaleContext) (downscale : ssetDownscale)
    (allLeavingNodes : List String) (statefulSets : StatefulSetList) (w : World)
    (pre post : List String) (node : String) (err : Error)
    (hremoval : downscale.isRemoval = false)
    (hdecrease : downscale.isReplicaDecrease = true)
    (hnodes : downscale.leavingNodeNames = pre ++ node :: post)
    (hpre : ∀ n ∈ pre, ctx.IsMigratingData w n allLeavingNodes = Except.ok false)
    (herr : ctx.IsMigratingData w node allLeavingNodes = Except.error err) :
    attemptDownscale ctx downscale allLeavingNodes statefulSets w = ((true, some err), w) := by
  have h := calculatePerformableDownscaleFrom_error ctx allLeavingNodes w node post err herr
    pre
    { statefulSet := downscale.statefulSet
      initialReplicas := downscale.initialReplicas
      targetReplicas := downscale.initialReplicas
      finalReplicas := downscale.finalReplicas } hpre
  have h1 : (calculatePerformableDownscale ctx downscale allLeavingNodes w).1.2 = some err := by
    unfold calculatePerformableDownscale
    rw [hnodes]
    exact h.1
  have h2 : (calculatePerformableDownscale ctx downscale allLeavingNodes w).2 = w := by
    unfold calculatePerformableDownscale
    rw [hnodes]
    exact h.2
  simp [attemptDownscale, hremoval, hdecrease, h1, h2]

/-- Worked example for C7: `es-data` goes from 5 to 2 replicas, `es-data-4` is evacuated and
the shard lister fails on `es-data-3`. -/
theorem attemptDownscale_lister_error_witness :
    attemptDownscale failingListerContext
        { statefulSet := dataSset 5, initialReplicas := 5, targetReplicas := 2,
          finalReplicas := 2 } [] [dataSset 5] [] =
      ((true, some (Error.other "shards unavailable")), []) :=
  attemptDownscale_lister_error failingListerContext
    { statefulSet := dataSset 5, initialReplicas := 5, targetReplicas := 2, finalReplicas := 2 }
    [] [dataSset 5] [] ["es-data-4"] ["es-data-2"] "es-data-3"
    (Error.other "shards unavailable") (by decide) (by decide) (by decide)
    (by
      intro n hn
      rw [List.mem_singleton] at hn
      subst hn
      rfl)
    rfl

/-- The two outcomes of `maybeUpdateZen1ForDownscale`: in the 2 to 1 masters situation it
records the warning event and then updates the minimum master nodes to 1; otherwise it issues
no call, and returns no error unless a collaborator it queried failed. -/
theorem maybeUpdateZen1ForDownscale_cases (ctx : downscaleContext)
    (actualStatefulSets : StatefulSetList) (w : World) :
    (legacyTwoMasters ctx actualStatefulSets w ∧
        maybeUpdateZen1ForDownscale ctx actualStatefulSets w =
          (ctx.UpdateMinimumMasterNodesTo (w ++ [unsafeDownscaleEvent]) 1,
            w ++ [unsafeDownscaleEvent, Effect.updateMinimumMasterNodes ctx.es 1])) ∨
      (¬ legacyTwoMasters ctx actualStatefulSets w ∧
        (maybeUpdateZen1ForDownscale ctx actualStatefulSets w).2 = w ∧
        ((ctx.AtLeastOneNodeCompatibleWithZen1 w actualStatefulSets).2 = none →
          ((ctx.AtLeastOneNodeCompatibleWithZen1 w actualStatefulSets).1 = true →
            (ctx.GetActualMastersForCluster w).2 = none) →
          (maybeUpdateZen1ForDownscale ctx actualStatefulSets w).1 = none)) := by
  unfold legacyTwoMasters maybeUpdateZen1ForDownscale unsafeDownscaleEvent
  rcases hc : ctx.AtLeastOneNodeCompatibleWithZen1 w actualStatefulSets with ⟨c, ce⟩
  rcases hm : ctx.GetActualMastersForCluster w with ⟨m, me⟩
  cases c <;> cases ce <;> cases me <;> by_cases hlen : m.length = 2 <;> simp [hlen]

/-- C9. `maybeUpdateZen1ForDownscale` sets the minimum master nodes to 1, after recording the
warning event, if and only if the legacy-protocol check reports a compatible member without
error and the masters are exactly 2; in every other case it issues no call, and it returns no
error when no collaborator it queried failed. -/
theorem maybeUpdateZen1ForDownscale_two_masters (ctx : downscaleContext)
    (actualStatefulSets : StatefulSetList) (w : World) :
    ((maybeUpdateZen1ForDownscale ctx actualStatefulSets w).2 =
          w ++ [unsafeDownscaleEvent, Effect.updateMinimumMasterNodes ctx.es 1] ↔
        legacyTwoMasters ctx actualStatefulSets w) ∧
      (legacyTwoMasters ctx actualStatefulSets w →
        (maybeUpdateZen1ForDownscale ctx actualStatefulSets w).1 =
          ctx.UpdateMinimumMasterNodesTo (w ++ [unsafeDownscaleEvent]) 1) ∧
      (¬ legacyTwoMasters ctx actualStatefulSets w →
        (maybeUpdateZen1ForDownscale ctx actualStatefulSets w).2 = w ∧
        ((ctx.AtLeastOneNodeCompatibleWithZen1 w actualStatefulSets).2 = none →
          ((ctx.AtLeastOneNodeCompatibleWithZen1 w actualStatefulSets).1 = true →
            (ctx.GetActualMastersForCluster w).2 = none) →
          (maybeUpdateZen1ForDownscale ctx actualStatefulSets w).1 = none)) := by
  rcases maybeUpdateZen1ForDownscale_cases ctx actualStatefulSets w with
    ⟨hyes, heq⟩ | ⟨hno, hw, herr⟩
  · refine ⟨⟨fun _ => hyes, fun _ => by rw [heq]⟩, fun _ => by rw [heq], fun h => absurd hyes h⟩
  · refine ⟨⟨fun h => ?_, fun h => absurd h hno⟩, fun h => absurd h hno, fun _ => ⟨hw, herr⟩⟩
    rw [hw] at h
    have hlen := congrArg List.length h
    simp at hlen

/-- Worked example for C9: two masters and a legacy member, the update of the minimum master
nodes fails, and its error is returned after the warning event was recorded. -/
theorem maybeUpdateZen1ForDownscale_two_masters_witness :
    legacyTwoMasters failingZen1Context [masterSset 2] [] ∧
      maybeUpdateZen1ForDownscale failingZen1Context [masterSset 2] [] =
        (some (Error.other "cluster unreachable"),
          [unsafeDownscaleEvent,
            Effect.updateMinimumMasterNodes { Namespace := "ns", Name := "es" } 1]) := by
  have hyes : legacyTwoMasters failingZen1Context [masterSset 2] [] := ⟨rfl, rfl, rfl⟩
  have h := maybeUpdateZen1ForDownscale_two_masters failingZen1Context [masterSset 2] []
  have h1 := h.1.mpr hyes
  have h2 := h.2.1 hyes
  refine ⟨hyes, Prod.ext h2 h1⟩

/-- The calls of `updateZenSettingsForDownscale` extend the log by quorum calls only: none of
them updates a StatefulSet or records an expectation. -/
theorem updateZenSettingsForDownscale_log (ctx : downscaleContext)
    (actualStatefulSets : StatefulSetList) (excludeNodes : List String) (w : World) :
    ∃ zen, (updateZenSettingsForDownscale ctx actualStatefulSets excludeNodes w).2 = w ++ zen ∧
      ∀ e ∈ zen, e.isStatefulSetUpdate = false ∧ e.isExpectation = false := by
  unfold updateZenSettingsForDownscale
  rcases maybeUpdateZen1ForDownscale_cases ctx actualStatefulSets w with
    ⟨_, heq⟩ | ⟨_, hw, _⟩
  · rw [heq]
    simp only
    split
    · refine ⟨[unsafeDownscaleEvent, Effect.updateMinimumMasterNodes ctx.es 1], rfl, ?_⟩
      intro e he
      simp only [List.mem_cons, List.mem_singleton, List.not_mem_nil, or_false] at he
      rcases he with he | he <;> subst he <;> exact ⟨rfl, rfl⟩
    · refine ⟨[unsafeDownscaleEvent, Effect.updateMinimumMasterNodes ctx.es 1,
        Effect.addToVotingConfigExclusions ctx.es excludeNodes], by simp, ?_⟩
      intro e he
      simp only [List.mem_cons, List.mem_singleton, List.not_mem_nil, or_false] at he
      rcases he with he | he | he <;> subst he <;> exact ⟨rfl, rfl⟩
  · simp only
    split
    · exact ⟨[], by simp [hw], by simp⟩
    · refine ⟨[Effect.addToVotingConfigExclusions ctx.es excludeNodes], by simp [hw], ?_⟩
      intro e he
      simp only [List.mem_singleton] at he
      subst he
      exact ⟨rfl, rfl⟩

/-- C8. For a downscale of a master StatefulSet, `doDownscale` runs the legacy minimum-quorum
update and then the voting-exclusion update before it updates the replicas: the quorum calls
contain no StatefulSet update and no expectation; if the first or the second fails,
`doDownscale` returns that error right after it, so that no StatefulSet update is issued and
no expectation is recorded; and when both succeed the StatefulSet update is the next call
after the voting-exclusion call. -/
theorem doDownscale_quorum_before_update (ctx : downscaleContext) (downscale : ssetDownscale)
    (actualStatefulSets : StatefulSetList) (w : World)
    (hmaster : IsMasterNodeSet downscale.statefulSet = true) :
    (∃ zen,
        (updateZenSettingsForDownscale ctx actualStatefulSets downscale.leavingNodeNames w).2 =
          w ++ zen ∧
        ∀ e ∈ zen, e.isStatefulSetUpdate = false ∧ e.isExpectation = false) ∧
      (∀ err, (maybeUpdateZen1ForDownscale ctx actualStatefulSets w).1 = some err →
        doDownscale ctx downscale actualStatefulSets w =
          (some err, (maybeUpdateZen1ForDownscale ctx actualStatefulSets w).2)) ∧
      (∀ err, (maybeUpdateZen1ForDownscale ctx actualStatefulSets w).1 = none →
        ctx.AddToVotingConfigExclusions (maybeUpdateZen1ForDownscale ctx actualStatefulSets w).2
          downscale.leavingNodeNames = some err →
        doDownscale ctx downscale actualStatefulSets w =
          (some err,
            (maybeUpdateZen1ForDownscale ctx actualStatefulSets w).2 ++
              [Effect.addToVotingConfigExclusions ctx.es downscale.leavingNodeNames])) ∧
      ((updateZenSettingsForDownscale ctx actualStatefulSets downscale.leavingNodeNames w).1 =
          none →
        ∃ rest, (doDownscale ctx downscale actualStatefulSets w).2 =
            (maybeUpdateZen1ForDownscale ctx actualStatefulSets w).2 ++
              Effect.addToVotingConfigExclusions ctx.es downscale.leavingNodeNames ::
              Effect.updateStatefulSet
                (UpdateReplicas downscale.statefulSet downscale.targetReplicas) :: rest ∧
          ∀ e ∈ rest, e.isStatefulSetUpdate = false) := by
  refine ⟨updateZenSettingsForDownscale_log ctx actualStatefulSets _ w, ?_, ?_, ?_⟩
  · intro err herr
    simp only [doDownscale, doDownscaleZen, hmaster, if_true, updateZenSettingsForDownscale,
      herr, Option.isSome_some]
    exact Prod.ext herr rfl
  · intro err hnone herr
    simp [doDownscale, doDownscaleZen, hmaster, updateZenSettingsForDownscale, hnone, herr]
  · intro hzen
    unfold updateZenSettingsForDownscale at hzen
    simp only at hzen
    split at hzen
    · rename_i hsome
      rw [hzen] at hsome
      simp at hsome
    · rename_i hnone
      simp only at hzen
      simp only [doDownscale, doDownscaleZen, hmaster, if_true, updateZenSettingsForDownscale,
        hnone, hzen, Option.isSome_none, Bool.false_eq_true, if_false]
      split
      · exact ⟨[], by simp, by simp⟩
      · refine ⟨[Effect.expectGeneration
          (UpdateReplicas downscale.statefulSet downscale.targetReplicas).Name], by simp, ?_⟩
        intro e he
        simp only [List.mem_singleton] at he
        subst he
        rfl

/-- Worked example for C8: the masters go from 2 to 1 replicas, a member runs the legacy
protocol and the update of the minimum master nodes fails: `doDownscale` returns that error
after the warning event and the failed call, and issues nothing else. -/
theorem doDownscale_quorum_before_update_witness :
    doDownscale failingZen1Context
        { statefulSet := masterSset 2, initialReplicas := 2, targetReplicas := 1,
          finalReplicas := 1 } [masterSset 2] [] =
      (some (Error.other "cluster unreachable"),
        (maybeUpdateZen1ForDownscale failingZen1Context [masterSset 2] []).2) :=
  (doDownscale_quorum_before_update failingZen1Context
    { statefulSet := masterSset 2, initialReplicas := 2, targetReplicas := 1,
      finalReplicas := 1 } [masterSset 2] [] rfl).2.1
    (Error.other "cluster unreachable") rfl

/-- C10, at a failing input. Against a store in which every delete answers not-found,
`removeStatefulSetResources` returns the not-found error of the StatefulSet delete; and against
a store that really deletes, a first removal of `es-data` succeeds and the repeated removal,
from the log the first one left, returns that not-found error: the two dependent deletes
filter not-found, the StatefulSet delete does not. -/
theorem removeStatefulSetResources_all_not_found_error :
    (∀ w es ssetName, ∃ what,
        emptyStoreContext.deleteHeadlessService w es ssetName = some (Error.notFound what)) ∧
      (∀ w ns ssetName, ∃ what,
        emptyStoreContext.deleteConfig w ns ssetName = some (Error.notFound what)) ∧
      (∀ w statefulSet, ∃ what,
        emptyStoreContext.deleteStatefulSet w statefulSet = some (Error.notFound what)) ∧
      (removeStatefulSetResources emptyStoreContext (dataSset 3) []).1 =
        some (Error.notFound "es-data") ∧
      (removeStatefulSetResources emptyStoreContext (dataSset 3) []).1 ≠ none ∧
      (removeStatefulSetResources deletingStoreContext (dataSset 3) []).1 = none ∧
      (removeStatefulSetResources deletingStoreContext (dataSset 3)
          (removeStatefulSetResources deletingStoreContext (dataSset 3) []).2).1 =
        some (Error.notFound "es-data") :=
  ⟨fun _ _ n => ⟨n, rfl⟩, fun _ _ n => ⟨n, rfl⟩, fun _ s => ⟨s.Name, rfl⟩, by decide,
    by decide, by decide, by decide⟩

/-- C11. When each dependent delete (headless service, configuration) succeeds or answers
not-found, `removeStatefulSetResources` goes on to delete the StatefulSet and returns the
answer of that delete; when the headless-service delete, or after it the configuration delete,
fails with another error, that error is returned and the StatefulSet delete is not issued. -/
theorem removeStatefulSetResources_result (ctx : downscaleContext)
    (statefulSet : StatefulSet) (w : World) :
    ((ctx.deleteHeadlessService w ctx.es statefulSet.Name = none ∨
          ∃ what, ctx.deleteHeadlessService w ctx.es statefulSet.Name =
            some (Error.notFound what)) →
        (ctx.deleteConfig (w ++ [Effect.deleteHeadlessService ctx.es statefulSet.Name])
              ctx.es.Namespace statefulSet.Name = none ∨
          ∃ what, ctx.deleteConfig (w ++ [Effect.deleteHeadlessService ctx.es statefulSet.Name])
              ctx.es.Namespace statefulSet.Name = some (Error.notFound what)) →
        removeStatefulSetResources ctx statefulSet w =
          (ctx.deleteStatefulSet
              (w ++ [Effect.deleteHeadlessService ctx.es statefulSet.Name] ++
                [Effect.deleteConfig ctx.es.Namespace statefulSet.Name]) statefulSet,
            w ++ [Effect.deleteHeadlessService ctx.es statefulSet.Name] ++
              [Effect.deleteConfig ctx.es.Namespace statefulSet.Name] ++
              [Effect.deleteStatefulSet statefulSet])) ∧
      (∀ err, ctx.deleteHeadlessService w ctx.es statefulSet.Name = some err →
        IsNotFound err = false →
        removeStatefulSetResources ctx statefulSet w =
          (some err, w ++ [Effect.deleteHeadlessService ctx.es statefulSet.Name])) ∧
      (∀ err,
        (ctx.deleteHeadlessService w ctx.es statefulSet.Name = none ∨
          ∃ what, ctx.deleteHeadlessService w ctx.es statefulSet.Name =
            some (Error.notFound what)) →
        ctx.deleteConfig (w ++ [Effect.deleteHeadlessService ctx.es statefulSet.Name])
            ctx.es.Namespace statefulSet.Name = some err →
        IsNotFound err = false →
        removeStatefulSetResources ctx statefulSet w =
          (some err,
            w ++ [Effect.deleteHeadlessService ctx.es statefulSet.Name] ++
              [Effect.deleteConfig ctx.es.Namespace statefulSet.Name])) := by
  have hsvc : (ctx.deleteHeadlessService w ctx.es statefulSet.Name = none ∨
      ∃ what, ctx.deleteHeadlessService w ctx.es statefulSet.Name =
        some (Error.notFound what)) →
      isFatal (ctx.deleteHeadlessService w ctx.es statefulSet.Name) = false := by
    rintro (h | ⟨x, h⟩) <;> simp [h, isFatal, IsNotFound]
  have hcfg : (ctx.deleteConfig (w ++ [Effect.deleteHeadlessService ctx.es statefulSet.Name])
        ctx.es.Namespace statefulSet.Name = none ∨
      ∃ what, ctx.deleteConfig (w ++ [Effect.deleteHeadlessService ctx.es statefulSet.Name])
        ctx.es.Namespace statefulSet.Name = some (Error.notFound what)) →
      isFatal (ctx.deleteConfig (w ++ [Effect.deleteHeadlessService ctx.es statefulSet.Name])
        ctx.es.Namespace statefulSet.Name) = false := by
    rintro (h | ⟨x, h⟩) <;> simp [h, isFatal, IsNotFound]
  refine ⟨fun h1 h2 => ?_, fun err h1 h2 => ?_, fun err h1 h2 h3 => ?_⟩
  · simp [removeStatefulSetResources, hsvc h1, hcfg h2]
  · simp [removeStatefulSetResources, h1, isFatal, h2]
  · have h4 : isFatal (some err) = true := by
      simp [isFatal, h3]
    simp only [removeStatefulSetResources, hsvc h1, h2, h4, Bool.false_eq_true, if_false,
      if_true]

/-- Worked example for C11: the headless service of `es-data` is already gone and deleting its
configuration is forbidden: the error is returned and the StatefulSet delete is not issued. -/
theorem removeStatefulSetResources_result_witness :
    removeStatefulSetResources failingConfigContext (dataSset 3) [] =
      (some (Error.other "forbidden"),
        [] ++ [Effect.deleteHeadlessService failingConfigContext.es (dataSset 3).Name] ++
          [Effect.deleteConfig failingConfigContext.es.Namespace (dataSset 3).Name]) :=
  (removeStatefulSetResources_result failingConfigContext (dataSset 3) []).2.2
    (Error.other "forbidden") (Or.inr ⟨"es-data", rfl⟩) rfl rfl

/-- The loop of `calculatePerformableDownscale` keeps the initial replicas of the downscale,
and issues no call but, at most, one `UpdateElasticsearchMigrating`. -/
theorem calculatePerformableDownscaleFrom_frame (ctx : downscaleContext)
    (allLeavingNodes : List String) (w : World) :
    ∀ (nodes : List String) (q : ssetDownscale),
      (calculatePerformableDownscaleFrom ctx allLeavingNodes w nodes q).1.1.initialReplicas =
          q.initialReplicas ∧
        ((calculatePerformableDownscaleFrom ctx allLeavingNodes w nodes q).2 = w ∨
          (calculatePerformableDownscaleFrom ctx allLeavingNodes w nodes q).2 =
            w ++ [Effect.updateElasticsearchMigrating]) := by
  intro nodes
  induction nodes with
  | nil => intro q; simp [calculatePerformableDownscaleFrom]
  | cons node rest ih =>
    intro q
    unfold calculatePerformableDownscaleFrom
    cases h : ctx.IsMigratingData w node allLeavingNodes with
    | error err => simp
    | ok b =>
      cases b with
      | true => simp
      | false => exact ih _

/-- When `doDownscale` returns no error, it has issued the update of the StatefulSet to the
target replicas of the downscale. -/
theorem doDownscale_success_log (ctx : downscaleContext) (downscale : ssetDownscale)
    (actualStatefulSets : StatefulSetList) (w : World)
    (h : (doDownscale ctx downscale actualStatefulSets w).1 = none) :
    Effect.updateStatefulSet (UpdateReplicas downscale.statefulSet downscale.targetReplicas) ∈
      (doDownscale ctx downscale actualStatefulSets w).2 := by
  unfold doDownscale at h ⊢
  simp only at h ⊢
  split
  · rename_i hz
    rw [if_pos hz] at h
    rw [h] at hz
    simp at hz
  · split <;> simp

/-- C13. For a replica-decrease operation (not on the removal path) for which the migration
gate returns no error and finds at least one node ready, and whose update succeeds,
`attemptDownscale` returns no error, and returns requeue == true if and only if the performable
target differs from the final replicas of the operation; the update it has issued sets the
replicas to the performable target, so that no requeue is returned exactly when this pass
brings the StatefulSet to its final replicas. -/
theorem attemptDownscale_requeue_iff (ctx : downscaleContext) (downscale : ssetDownscale)
    (allLeavingNodes : List String) (statefulSets : StatefulSetList) (w : World)
    (hremoval : downscale.isRemoval = false)
    (hdecrease : downscale.isReplicaDecrease = true)
    (hgate : (calculatePerformableDownscale ctx downscale allLeavingNodes w).1.2 = none)
    (hready :
      (calculatePerformableDownscale ctx downscale allLeavingNodes w).1.1.isReplicaDecrease =
        true)
    (hupdate :
      (doDownscale ctx (calculatePerformableDownscale ctx downscale allLeavingNodes w).1.1
        statefulSets (calculatePerformableDownscale ctx downscale allLeavingNodes w).2).1 =
        none) :
    ((attemptDownscale ctx downscale allLeavingNodes statefulSets w).1.1 = true ↔
        (calculatePerformableDownscale ctx downscale allLeavingNodes w).1.1.targetReplicas ≠
          downscale.finalReplicas) ∧
      (attemptDownscale ctx downscale allLeavingNodes statefulSets w).1.2 = none ∧
      Effect.updateStatefulSet
          (UpdateReplicas
            (calculatePerformableDownscale ctx downscale allLeavingNodes w).1.1.statefulSet
            (calculatePerformableDownscale ctx downscale allLeavingNodes w).1.1.targetReplicas) ∈
        (attemptDownscale ctx downscale allLeavingNodes statefulSets w).2 := by
  have hlog := doDownscale_success_log ctx
    (calculatePerformableDownscale ctx downscale allLeavingNodes w).1.1 statefulSets
    (calculatePerformableDownscale ctx downscale allLeavingNodes w).2 hupdate
  have hworld : (attemptDownscale ctx downscale allLeavingNodes statefulSets w).2 =
      (doDownscale ctx (calculatePerformableDownscale ctx downscale allLeavingNodes w).1.1
        statefulSets (calculatePerformableDownscale ctx downscale allLeavingNodes w).2).2 := by
    simp [attemptDownscale, hremoval, hdecrease, hgate, hready]
  refine ⟨?_, ?_, ?_⟩
  · simp [attemptDownscale, hremoval, hdecrease, hgate, hready]
  · simp [attemptDownscale, hremoval, hdecrease, hgate, hready, hupdate]
  · rw [hworld]
    exact hlog

/-- Worked example for C13: `es-data` goes from 5 to 2 replicas, only `es-data-4` is
evacuated: the performable target 4 differs from the final replicas 2, a requeue is returned
and the update to 4 replicas is issued. -/
theorem attemptDownscale_requeue_iff_witness :
    attemptDownscale (fakeContext 3 (fun node => node == "es-data-3"))
          { statefulSet := dataSset 5, initialReplicas := 5, targetReplicas := 2,
            finalReplicas := 2 } [] [dataSset 5] [] =
        ((true, none),
          [Effect.updateElasticsearchMigrating, Effect.updateStatefulSet (dataSset 4),
            Effect.expectGeneration "es-data"]) ∧
      (((attemptDownscale (fakeContext 3 (fun node => node == "es-data-3"))
          { statefulSet := dataSset 5, initialReplicas := 5, targetReplicas := 2,
            finalReplicas := 2 } [] [dataSset 5] []).1.1 = true ↔
        (calculatePerformableDownscale (fakeContext 3 (fun node => node == "es-data-3"))
          { statefulSet := dataSset 5, initialReplicas := 5, targetReplicas := 2,
            finalReplicas := 2 } [] []).1.1.targetReplicas ≠
          (2 : Int)) ∧
      (attemptDownscale (fakeContext 3 (fun node => node == "es-data-3"))
          { statefulSet := dataSset 5, initialReplicas := 5, targetReplicas := 2,
            finalReplicas := 2 } [] [dataSset 5] []).1.2 = none) :=
  ⟨by decide,
    (attemptDownscale_requeue_iff (fakeContext 3 (fun node => node == "es-data-3"))
      { statefulSet := dataSset 5, initialReplicas := 5, targetReplicas := 2,
        finalReplicas := 2 }
      [] [dataSset 5] [] (by decide) (by decide) (by decide) (by decide) (by decide)).1,
    (attemptDownscale_requeue_iff (fakeContext 3 (fun node => node == "es-data-3"))
      { statefulSet := dataSset 5, initialReplicas := 5, targetReplicas := 2,
        finalReplicas := 2 }
      [] [dataSset 5] [] (by decide) (by decide) (by decide) (by decide) (by decide)).2.1⟩

/-- C14. For a replica-decrease operation (not on the removal path) for which the migration
gate returns no error and a target equal to the initial replicas, `attemptDownscale` returns
requeue == true with no error, and the only call it can have issued is
`UpdateElasticsearchMigrating` on the reconcile state: no StatefulSet update or delete, no
quorum call and no expectation. -/
theorem attemptDownscale_no_node_ready (ctx : downscaleContext) (downscale : ssetDownscale)
    (allLeavingNodes : List String) (statefulSets : StatefulSetList) (w : World)
    (hremoval : downscale.isRemoval = false)
    (hdecrease : downscale.isReplicaDecrease = true)
    (hgate : (calculatePerformableDownscale ctx downscale allLeavingNodes w).1.2 = none)
    (hzero :
      (calculatePerformableDownscale ctx downscale allLeavingNodes w).1.1.targetReplicas =
        downscale.initialReplicas) :
    (attemptDownscale ctx downscale allLeavingNodes statefulSets w).1 = (true, none) ∧
      ∃ new, (attemptDownscale ctx downscale allLeavingNodes statefulSets w).2 = w ++ new ∧
        ∀ e ∈ new, e = Effect.updateElasticsearchMigrating := by
  have hframe := calculatePerformableDownscaleFrom_frame ctx allLeavingNodes w
    downscale.leavingNodeNames
    { statefulSet := downscale.statefulSet
      initialReplicas := downscale.initialReplicas
      targetReplicas := downscale.initialReplicas
      finalReplicas := downscale.finalReplicas }
  have hinit :
      (calculatePerformableDownscale ctx downscale allLeavingNodes w).1.1.initialReplicas =
        downscale.initialReplicas := hframe.1
  have hnot :
      (calculatePerformableDownscale ctx downscale allLeavingNodes w).1.1.isReplicaDecrease =
        false := by
    simp [ssetDownscale.isReplicaDecrease, hzero, hinit]
  have hworld : (attemptDownscale ctx downscale allLeavingNodes statefulSets w).2 =
      (calculatePerformableDownscale ctx downscale allLeavingNodes w).2 := by
    simp [attemptDownscale, hremoval, hdecrease, hgate, hnot]
  refine ⟨by simp [attemptDownscale, hremoval, hdecrease, hgate, hnot], ?_⟩
  rw [hworld]
  rcases hframe.2 with h | h
  · exact ⟨[], by simpa [calculatePerformableDownscale] using h, by simp⟩
  · exact ⟨[Effect.updateElasticsearchMigrating], h, by simp⟩

/-- Worked example for C14: `es-data` goes from 5 to 2 replicas and `es-data-4` is still
migrating, although the lower ordinals are evacuated. -/
theorem attemptDownscale_no_node_ready_witness :
    (attemptDownscale (fakeContext 3 (fun node => node == "es-data-4"))
          { statefulSet := dataSset 5, initialReplicas := 5, targetReplicas := 2,
            finalReplicas := 2 } [] [dataSset 5] []).1 = (true, none) ∧
      ∃ new, (attemptDownscale (fakeContext 3 (fun node => node == "es-data-4"))
          { statefulSet := dataSset 5, initialReplicas := 5, targetReplicas := 2,
            finalReplicas := 2 } [] [dataSset 5] []).2 = [] ++ new ∧
        ∀ e ∈ new, e = Effect.updateElasticsearchMigrating :=
  attemptDownscale_no_node_ready (fakeContext 3 (fun node => node == "es-data-4"))
    { statefulSet := dataSset 5, initialReplicas := 5, targetReplicas := 2, finalReplicas := 2 }
    [] [dataSset 5] [] (by decide) (by decide) (by decide) (by decide)

/-- The calls of `removeStatefulSetResources` extend the log. -/
theorem removeStatefulSetResources_extends (ctx : downscaleContext)
    (statefulSet : StatefulSet) (w : World) :
    ∃ new, (removeStatefulSetResources ctx statefulSet w).2 = w ++ new := by
  unfold removeStatefulSetResources
  simp only
  split
  · exact ⟨_, rfl⟩
  · split
    · exact ⟨_, List.append_assoc _ _ _⟩
    · exact ⟨[Effect.deleteHeadlessService ctx.es statefulSet.Name,
        Effect.deleteConfig ctx.es.Namespace statefulSet.Name,
        Effect.deleteStatefulSet statefulSet], by simp⟩

/-- The calls of `doDownscale` extend the log. -/
theorem doDownscale_extends (ctx : downscaleContext) (downscale : ssetDownscale)
    (actualStatefulSets : StatefulSetList) (w : World) :
    ∃ new, (doDownscale ctx downscale actualStatefulSets w).2 = w ++ new := by
  have hzen : ∃ zen, (doDownscaleZen ctx downscale actualStatefulSets w).2 = w ++ zen := by
    unfold doDownscaleZen
    split
    · obtain ⟨zen, hz, _⟩ := updateZenSettingsForDownscale_log ctx actualStatefulSets
        downscale.leavingNodeNames w
      exact ⟨zen, hz⟩
    · exact ⟨[], by simp⟩
  obtain ⟨zen, hz⟩ := hzen
  unfold doDownscale
  simp only
  split
  · exact ⟨zen, hz⟩
  · split
    · exact ⟨_, by rw [hz, List.append_assoc]⟩
    · exact ⟨_, by rw [hz, List.append_assoc, List.append_assoc]⟩

/-- The calls of `attemptDownscale` extend the log: what was applied before is kept. -/
theorem attemptDownscale_extends (ctx : downscaleContext) (downscale : ssetDownscale)
    (allLeavingNodes : List String) (statefulSets : StatefulSetList) (w : World) :
    ∃ new, (attemptDownscale ctx downscale allLeavingNodes statefulSets w).2 = w ++ new := by
  have hgate : ∃ new, (calculatePerformableDownscale ctx downscale allLeavingNodes w).2 =
      w ++ new := by
    rcases (calculatePerformableDownscaleFrom_frame ctx allLeavingNodes w
      downscale.leavingNodeNames
      { statefulSet := downscale.statefulSet
        initialReplicas := downscale.initialReplicas
        targetReplicas := downscale.initialReplicas
        finalReplicas := downscale.finalReplicas }).2 with h | h
    · exact ⟨[], by simpa [calculatePerformableDownscale] using h⟩
    · exact ⟨_, h⟩
  obtain ⟨g, hg⟩ := hgate
  unfold attemptDownscale
  split
  · exact removeStatefulSetResources_extends ctx downscale.statefulSet w
  · split
    · simp only
      split
      · exact ⟨g, hg⟩
      · split
        · exact ⟨g, hg⟩
        · obtain ⟨n, hn⟩ := doDownscale_extends ctx
            (calculatePerformableDownscale ctx downscale allLeavingNodes w).1.1 statefulSets
            (calculatePerformableDownscale ctx downscale allLeavingNodes w).2
          exact ⟨g ++ n, by rw [hn, hg, List.append_assoc]⟩
    · exact ⟨[], by simp⟩

/-- The calls of the loop of `HandleDownscale` extend the log. -/
theorem attemptDownscales_extends (ctx : downscaleContext) (leavingNodes : List String)
    (actualStatefulSets : StatefulSetList) :
    ∀ (downscales : List ssetDownscale) (results : Results) (w : World),
      ∃ new,
        (attemptDownscales ctx leavingNodes actualStatefulSets downscales results w).2 =
          w ++ new := by
  intro downscales
  induction downscales with
  | nil => intro results w; exact ⟨[], by simp [attemptDownscales]⟩
  | cons d rest ih =>
    intro results w
    obtain ⟨n, hn⟩ := attemptDownscale_extends ctx d leavingNodes actualStatefulSets w
    unfold attemptDownscales
    simp only
    split
    · exact ⟨n, hn⟩
    · obtain ⟨m, hm⟩ := ih
        (if (attemptDownscale ctx d leavingNodes actualStatefulSets w).1.1 = true then
          results.WithRequeue else results)
        (attemptDownscale ctx d leavingNodes actualStatefulSets w).2
      exact ⟨n ++ m, by rw [hm, hn, List.append_assoc]⟩

/-- One turn of the loop of `HandleDownscale` when the attempt fails: the loop stops. -/
theorem attemptDownscales_cons_error (ctx : downscaleContext) (leavingNodes : List String)
    (actualStatefulSets : StatefulSetList) (d : ssetDownscale) (rest : List ssetDownscale)
    (results : Results) (w : World) (err : Error)
    (herr : (attemptDownscale ctx d leavingNodes actualStatefulSets w).1.2 = some err) :
    attemptDownscales ctx leavingNodes actualStatefulSets (d :: rest) results w =
      (results.WithError err, (attemptDownscale ctx d leavingNodes actualStatefulSets w).2) := by
  simp only [attemptDownscales, herr]

/-- One turn of the loop of `HandleDownscale` when the attempt succeeds. -/
theorem attemptDownscales_cons_ok (ctx : downscaleContext) (leavingNodes : List String)
    (actualStatefulSets : StatefulSetList) (d : ssetDownscale) (rest : List ssetDownscale)
    (results : Results) (w : World)
    (hok : (attemptDownscale ctx d leavingNodes actualStatefulSets w).1.2 = none) :
    attemptDownscales ctx leavingNodes actualStatefulSets (d :: rest) results w =
      attemptDownscales ctx leavingNodes actualStatefulSets rest
        (if (attemptDownscale ctx d leavingNodes actualStatefulSets w).1.1 = true then
          results.WithRequeue else results)
        (attemptDownscale ctx d leavingNodes actualStatefulSets w).2 := by
  simp only [attemptDownscales, hok]

/-- The loop of `HandleDownscale` over `pre ++ rest`, when no attempt of `pre` fails, goes on
with `rest` from the results and the log reached after `pre`. -/
theorem attemptDownscales_append (ctx : downscaleContext) (leavingNodes : List String)
    (actualStatefulSets : StatefulSetList) (rest : List ssetDownscale) :
    ∀ (pre : List ssetDownscale) (results : Results) (w : World),
      (attemptDownscales ctx leavingNodes actualStatefulSets pre results w).1.errors =
        results.errors →
      attemptDownscales ctx leavingNodes actualStatefulSets (pre ++ rest) results w =
        attemptDownscales ctx leavingNodes actualStatefulSets rest
          (attemptDownscales ctx leavingNodes actualStatefulSets pre results w).1
          (attemptDownscales ctx leavingNodes actualStatefulSets pre results w).2 := by
  intro pre
  induction pre with
  | nil => intro results w _; simp [attemptDownscales]
  | cons d ds ih =>
    intro results w h
    simp only [List.cons_append]
    cases herr : (attemptDownscale ctx d leavingNodes actualStatefulSets w).1.2 with
    | some err =>
      rw [attemptDownscales_cons_error ctx leavingNodes actualStatefulSets d ds results w err
        herr] at h
      simp only [Results.WithError] at h
      have hlen := congrArg List.length h
      simp at hlen
    | none =>
      rw [attemptDownscales_cons_ok ctx leavingNodes actualStatefulSets d ds results w herr]
        at h ⊢
      rw [attemptDownscales_cons_ok ctx leavingNodes actualStatefulSets d (ds ++ rest) results w
        herr]
      apply ih
      rw [h]
      split <;> rfl

/-- C12. `HandleDownscale` is fail-fast. If building the downscale state fails, the result
carries that error and nothing was issued. If pushing the migration exclusions fails, the
result carries that error and the log stops at that call. If the attempt of the planned
downscale `d` fails after those of `pre` succeeded, the result carries that error alone, the
log is the one reached right after the attempt of `d`, whatever downscales `post` follow in the
plan (none of them is attempted), and it keeps every call issued for `pre`. -/
theorem HandleDownscale_fail_fast (ctx : downscaleContext)
    (expectedStatefulSets actualStatefulSets : StatefulSetList) (w : World) :
    (∀ err, ctx.newDownscaleState w = Except.error err →
        HandleDownscale ctx expectedStatefulSets actualStatefulSets w =
          ({ errors := [err], requeue := false }, w)) ∧
      (∀ state err leaving, ctx.newDownscaleState w = Except.ok state →
        leaving = leavingNodeNames (calculateDownscales ctx.checkDownscaleInvariants state
          expectedStatefulSets actualStatefulSets) →
        ctx.MigrateData w leaving = some err →
        HandleDownscale ctx expectedStatefulSets actualStatefulSets w =
          ({ errors := [err], requeue := false }, w ++ [Effect.migrateData leaving])) ∧
      (∀ state pre d post err leaving w1, ctx.newDownscaleState w = Except.ok state →
        calculateDownscales ctx.checkDownscaleInvariants state expectedStatefulSets
          actualStatefulSets = pre ++ d :: post →
        leaving = leavingNodeNames (pre ++ d :: post) →
        ctx.MigrateData w leaving = none →
        w1 = w ++ [Effect.migrateData leaving] →
        (attemptDownscales ctx leaving actualStatefulSets pre
          { errors := [], requeue := false } w1).1.errors = [] →
        (attemptDownscale ctx d leaving actualStatefulSets
          (attemptDownscales ctx leaving actualStatefulSets pre
            { errors := [], requeue := false } w1).2).1.2 = some err →
        HandleDownscale ctx expectedStatefulSets actualStatefulSets w =
            ((attemptDownscales ctx leaving actualStatefulSets pre
                { errors := [], requeue := false } w1).1.WithError err,
              (attemptDownscale ctx d leaving actualStatefulSets
                (attemptDownscales ctx leaving actualStatefulSets pre
                  { errors := [], requeue := false } w1).2).2) ∧
          (HandleDownscale ctx expectedStatefulSets actualStatefulSets w).1.errors = [err] ∧
          ∃ kept last,
            (attemptDownscales ctx leaving actualStatefulSets pre
              { errors := [], requeue := false } w1).2 = w1 ++ kept ∧
            (HandleDownscale ctx expectedStatefulSets actualStatefulSets w).2 =
              w1 ++ kept ++ last) := by
  refine ⟨fun err h => ?_, fun state err leaving h hl hm => ?_,
    fun state pre d post err leaving w1 h hplan hl hm hw hpre herr => ?_⟩
  · simp [HandleDownscale, h, Results.WithError]
  · subst hl
    simp [HandleDownscale, h, hm, Results.WithError]
  · subst hl hw
    have hrun : HandleDownscale ctx expectedStatefulSets actualStatefulSets w =
        ((attemptDownscales ctx (leavingNodeNames (pre ++ d :: post)) actualStatefulSets pre
            { errors := [], requeue := false }
            (w ++ [Effect.migrateData (leavingNodeNames (pre ++ d :: post))])).1.WithError err,
          (attemptDownscale ctx d (leavingNodeNames (pre ++ d :: post)) actualStatefulSets
            (attemptDownscales ctx (leavingNodeNames (pre ++ d :: post)) actualStatefulSets pre
              { errors := [], requeue := false }
              (w ++ [Effect.migrateData (leavingNodeNames (pre ++ d :: post))])).2).2) := by
      simp only [HandleDownscale, h, hplan, hm]
      rw [attemptDownscales_append ctx _ actualStatefulSets (d :: post) pre _ _ hpre]
      exact attemptDownscales_cons_error ctx _ actualStatefulSets d post _ _ err herr
    refine ⟨hrun, ?_, ?_⟩
    · rw [hrun]
      simp [Results.WithError, hpre]
    · obtain ⟨kept, hkept⟩ := attemptDownscales_extends ctx
        (leavingNodeNames (pre ++ d :: post)) actualStatefulSets pre
        { errors := [], requeue := false }
        (w ++ [Effect.migrateData (leavingNodeNames (pre ++ d :: post))])
      obtain ⟨last, hlast⟩ := attemptDownscale_extends ctx d
        (leavingNodeNames (pre ++ d :: post)) actualStatefulSets
        (attemptDownscales ctx (leavingNodeNames (pre ++ d :: post)) actualStatefulSets pre
          { errors := [], requeue := false }
          (w ++ [Effect.migrateData (leavingNodeNames (pre ++ d :: post))])).2
      refine ⟨kept, last, hkept, ?_⟩
      rw [hrun]
      simp only
      rw [hlast, hkept]

/-- Worked example for C12: the masters, the data nodes and the ingest nodes are each to lose
one replica; the update of `es-data` fails after the masters were downscaled: the result
carries that error alone. -/
theorem HandleDownscale_fail_fast_witness :
    (HandleDownscale failingUpdateContext [masterSset 2, dataSset 4, ingestSset 1]
        [masterSset 3, dataSset 5, ingestSset 2] []).1.errors = [Error.other "conflict"] :=
  ((HandleDownscale_fail_fast failingUpdateContext [masterSset 2, dataSset 4, ingestSset 1]
      [masterSset 3, dataSset 5, ingestSset 2] []).2.2
    { remainingBudget := 3, plannedRemovals := 0 }
    [{ statefulSet := masterSset 3, initialReplicas := 3, targetReplicas := 2,
       finalReplicas := 2 }]
    { statefulSet := dataSset 5, initialReplicas := 5, targetReplicas := 4, finalReplicas := 4 }
    [{ statefulSet := ingestSset 2, initialReplicas := 2, targetReplicas := 1,
       finalReplicas := 1 }]
    (Error.other "conflict") ["es-master-2", "es-data-4", "es-ingest-1"]
    [Effect.migrateData ["es-master-2", "es-data-4", "es-ingest-1"]]
    rfl (by decide) (by decide) rfl rfl (by decide) (by decide)).2.1

/-- With an `int32` remaining budget, the value of `toDelete` is an `int32` that does not
exceed the remaining budget. -/
theorem isInt32_toDeleteFor (st : downscaleState) (a : StatefulSet) (e : Int)
    (hst : isInt32 st.remainingBudget) :
    isInt32 (toDeleteFor st a e) ∧ toDeleteFor st a e ≤ st.remainingBudget := by
  have hw := isInt32_wrap32 (GetReplicas a - e)
  simp only [toDeleteFor, downscaleState.getMaxNodesToRemove, sub32]
  unfold isInt32 at hst hw ⊢
  split <;> omega

/-- The `int32` difference between `r` and `r - t` is `t`. -/
theorem sub32_sub32_self (r t : Int) (ht : isInt32 t) : sub32 r (sub32 r t) = t := by
  unfold isInt32 at ht
  simp only [sub32, wrap32]
  omega

/-- The removals planned by the loop of `calculateDownscales` sum to at most any bound `U`
that is non-negative and at least the remaining budget. -/
theorem sum_removals_le (check : downscaleState → StatefulSet → Bool × String)
    (expectedStatefulSets : StatefulSetList) :
    ∀ (actualStatefulSets : StatefulSetList) (state : downscaleState) (U : Int),
      isInt32 state.remainingBudget → state.remainingBudget ≤ U → 0 ≤ U →
      ((calculateDownscalesFrom check expectedStatefulSets state actualStatefulSets).map
        (fun d => sub32 d.initialReplicas d.targetReplicas)).sum ≤ U := by
  intro actualStatefulSets
  induction actualStatefulSets with
  | nil => intro state U _ _ hU; simpa [calculateDownscalesFrom] using hU
  | cons a rest ih =>
    intro state U hst hle hU
    unfold calculateDownscalesFrom
    simp only
    split
    · split
      · exact ih state U hst hle hU
      · have ht := isInt32_toDeleteFor state a (expectedReplicasFor expectedStatefulSets a) hst
        have hkey := sub32_sub32_self (GetReplicas a)
          (toDeleteFor state a (expectedReplicasFor expectedStatefulSets a)) ht.1
        have hrec := ih
          (state.recordRemoval a (toDeleteFor state a (expectedReplicasFor expectedStatefulSets a)))
          (U - toDeleteFor state a (expectedReplicasFor expectedStatefulSets a))
          (by simp only [downscaleState.recordRemoval, sub32]; exact isInt32_wrap32 _)
          (by
            have h1 := ht.2
            simp only [downscaleState.recordRemoval, sub32, wrap32]
            omega)
          (by have h1 := ht.2; omega)
        simp only [List.map_cons, List.sum_cons, hkey]
        omega
    · exact ih state U hst hle hU

/-- On non-negative `int32` replica counts and a non-negative budget, the `int32` difference
`initialReplicas - targetReplicas` of each emitted downscale is the exact difference. -/
theorem calculateDownscales_exact_difference
    (check : downscaleState → StatefulSet → Bool × String) (state : downscaleState)
    (expectedStatefulSets actualStatefulSets : StatefulSetList)
    (hbudget : 0 ≤ state.remainingBudget ∧ isInt32 state.remainingBudget)
    (hactual : ∀ a ∈ actualStatefulSets, 0 ≤ GetReplicas a ∧ isInt32 (GetReplicas a))
    (hexpected : ∀ e ∈ expectedStatefulSets, 0 ≤ GetReplicas e ∧ isInt32 (GetReplicas e))
    (d : ssetDownscale)
    (hd : d ∈ calculateDownscalesFrom check expectedStatefulSets state actualStatefulSets) :
    sub32 d.initialReplicas d.targetReplicas = d.initialReplicas - d.targetReplicas := by
  obtain ⟨st, a, ha, hst, hcond, rfl⟩ := mem_calculateDownscalesFrom check expectedStatefulSets
    (fun st => 0 ≤ st.remainingBudget ∧ isInt32 st.remainingBudget)
    actualStatefulSets state hbudget
    (fun st a ha hst hcond => by
      have hb := toDeleteFor_bounds st a (expectedReplicasFor expectedStatefulSets a)
        (hactual a ha) (expectedReplicasFor_bounds expectedStatefulSets hexpected a) hcond hst.1
      have h2 := hst.2
      unfold isInt32 at h2 ⊢
      simp only [downscaleState.recordRemoval, sub32, wrap32]
      omega) d hd
  have hb := toDeleteFor_bounds st a (expectedReplicasFor expectedStatefulSets a)
    (hactual a ha) (expectedReplicasFor_bounds expectedStatefulSets hexpected a) hcond hst.1
  have he := expectedReplicasFor_bounds expectedStatefulSets hexpected a
  have h1 := (hactual a ha).2
  have h0 := (hactual a ha).1
  have h3 := he.2
  unfold isInt32 at h1 h3
  simp only [sub32, wrap32]
  omega

/-- C15. With a non-negative remaining budget `b`, the removals planned by one call of
`calculateDownscales` sum to at most `b`: the sum of the `int32` differences
`initialReplicas - targetReplicas` over the emitted downscales is at most `b`, for every list
of StatefulSets; on non-negative replica counts these are the exact differences, whose sum is
at most `b`. -/
theorem calculateDownscales_sum_le_budget
    (check : downscaleState → StatefulSet → Bool × String) (state : downscaleState)
    (expectedStatefulSets actualStatefulSets : StatefulSetList)
    (hbudget : 0 ≤ state.remainingBudget ∧ isInt32 state.remainingBudget) :
    ((calculateDownscales check state expectedStatefulSets actualStatefulSets).map
        (fun d => sub32 d.initialReplicas d.targetReplicas)).sum ≤ state.remainingBudget ∧
      ((∀ a ∈ actualStatefulSets, 0 ≤ GetReplicas a ∧ isInt32 (GetReplicas a)) →
        (∀ e ∈ expectedStatefulSets, 0 ≤ GetReplicas e ∧ isInt32 (GetReplicas e)) →
        ((calculateDownscales check state expectedStatefulSets actualStatefulSets).map
          (fun d => d.initialReplicas - d.targetReplicas)).sum ≤ state.remainingBudget) := by
  have hsum := sum_removals_le check expectedStatefulSets actualStatefulSets state
    state.remainingBudget hbudget.2 (le_refl _) hbudget.1
  refine ⟨hsum, fun hactual hexpected => ?_⟩
  have hmap : (calculateDownscales check state expectedStatefulSets actualStatefulSets).map
        (fun d => d.initialReplicas - d.targetReplicas) =
      (calculateDownscales check state expectedStatefulSets actualStatefulSets).map
        (fun d => sub32 d.initialReplicas d.targetReplicas) := by
    apply List.map_congr_left
    intro d hd
    exact (calculateDownscales_exact_difference check state expectedStatefulSets
      actualStatefulSets hbudget hactual hexpected d hd).symm
  rw [hmap]
  exact hsum

/-- Worked example for C15: with a budget of 2, the data nodes are to go from 5 to 1 replicas
and the ingest nodes from 4 to 1: 2 data nodes and no ingest node are planned to leave. -/
theorem calculateDownscales_sum_le_budget_witness :
    calculateDownscales (fun _ _ => (true, "")) { remainingBudget := 2, plannedRemovals := 0 }
        [dataSset 1, ingestSset 1] [dataSset 5, ingestSset 4] =
      [{ statefulSet := dataSset 5, initialReplicas := 5, targetReplicas := 3,
         finalReplicas := 1 },
       { statefulSet := ingestSset 4, initialReplicas := 4, targetReplicas := 4,
         finalReplicas := 1 }] ∧
      ((calculateDownscales (fun _ _ => (true, ""))
          { remainingBudget := 2, plannedRemovals := 0 }
          [dataSset 1, ingestSset 1] [dataSset 5, ingestSset 4]).map
        (fun d => d.initialReplicas - d.targetReplicas)).sum ≤ 2 :=
  ⟨by decide,
    (calculateDownscales_sum_le_budget (fun _ _ => (true, ""))
      { remainingBudget := 2, plannedRemovals := 0 }
      [dataSset 1, ingestSset 1] [dataSset 5, ingestSset 4] (by decide)).2
      (by decide) (by decide)⟩

/-- The highest `k` ordinals of `n` leaving members are the ordinals of `k` leaving members. -/
theorem take_ordinalsDown : ∀ (n k : Nat) (initial : Int), k ≤ n →
    (ordinalsDown initial n).take k = ordinalsDown initial k := by
  intro n
  induction n with
  | zero =>
    intro k initial hk
    have hk0 : k = 0 := Nat.le_zero.mp hk
    subst hk0
    rfl
  | succ n ih =>
    intro k initial hk
    cases k with
    | zero => rfl
    | succ k =>
      simp only [ordinalsDown, List.take_succ_cons]
      rw [ih k (initial - 1) (Nat.le_of_succ_le_succ hk)]

/-- The result of `calculatePerformableDownscale` under an error-free shard lister. -/
theorem calculatePerformableDownscale_ok (ctx : downscaleContext)
    (downscale : ssetDownscale) (allLeavingNodes : List String) (w : World)
    (hinitial : isInt32 downscale.initialReplicas)
    (htarget : isInt32 downscale.targetReplicas)
    (hok : ∀ node, ∃ b, ctx.IsMigratingData w node allLeavingNodes = Except.ok b) :
    (calculatePerformableDownscale ctx downscale allLeavingNodes w).1 =
      ({ statefulSet := downscale.statefulSet
         initialReplicas := downscale.initialReplicas
         targetReplicas :=
           downscale.initialReplicas - (evacuatedPrefix ctx w allLeavingNodes downscale : Int)
         finalReplicas := downscale.finalReplicas }, none) := by
  have hlen : (evacuatedPrefix ctx w allLeavingNodes downscale : Int) ≤
      ((downscale.initialReplicas - downscale.targetReplicas).toNat : Int) := by
    have h1 := (List.takeWhile_sublist (notMigrating ctx w allLeavingNodes)
      (l := downscale.leavingNodeNames)).length_le
    rw [length_leavingNodeNames] at h1
    unfold evacuatedPrefix
    exact_mod_cast h1
  exact calculatePerformableDownscaleFrom_ok ctx allLeavingNodes w
    downscale.leavingNodeNames
    { statefulSet := downscale.statefulSet
      initialReplicas := downscale.initialReplicas
      targetReplicas := downscale.initialReplicas
      finalReplicas := downscale.finalReplicas }
    (fun n _ => hok n) hinitial
    (by
      unfold evacuatedPrefix at hlen
      unfold isInt32 at hinitial htarget
      simp only
      omega)

/-- The leaving nodes of the performable downscale are the evacuated prefix of the leaving
nodes of the downscale, so that its own evacuated prefix has the same length. -/
theorem evacuatedPrefix_performable (ctx : downscaleContext) (downscale : ssetDownscale)
    (allLeavingNodes : List String) (w : World) :
    evacuatedPrefix ctx w allLeavingNodes
        { statefulSet := downscale.statefulSet
          initialReplicas := downscale.initialReplicas
          targetReplicas :=
            downscale.initialReplicas - (evacuatedPrefix ctx w allLeavingNodes downscale : Int)
          finalReplicas := downscale.finalReplicas } =
      evacuatedPrefix ctx w allLeavingNodes downscale := by
  have hle : evacuatedPrefix ctx w allLeavingNodes downscale ≤
      (downscale.initialReplicas - downscale.targetReplicas).toNat := by
    have h1 := (List.takeWhile_sublist (notMigrating ctx w allLeavingNodes)
      (l := downscale.leavingNodeNames)).length_le
    rw [length_leavingNodeNames] at h1
    exact h1
  have hnodes : ssetDownscale.leavingNodeNames
        { statefulSet := downscale.statefulSet
          initialReplicas := downscale.initialReplicas
          targetReplicas :=
            downscale.initialReplicas - (evacuatedPrefix ctx w allLeavingNodes downscale : Int)
          finalReplicas := downscale.finalReplicas } =
      downscale.leavingNodeNames.takeWhile (notMigrating ctx w allLeavingNodes) := by
    have hk : (downscale.initialReplicas -
        (downscale.initialReplicas - (evacuatedPrefix ctx w allLeavingNodes downscale : Int))).toNat =
        evacuatedPrefix ctx w allLeavingNodes downscale := by
      omega
    have htake : downscale.leavingNodeNames.takeWhile (notMigrating ctx w allLeavingNodes) =
        downscale.leavingNodeNames.take (evacuatedPrefix ctx w allLeavingNodes downscale) :=
      List.prefix_iff_eq_take.mp
        (List.takeWhile_prefix (notMigrating ctx w allLeavingNodes)
          (l := downscale.leavingNodeNames))
    rw [htake]
    simp only [ssetDownscale.leavingNodeNames, ssetDownscale.leavingOrdinals, hk]
    rw [← List.map_take, take_ordinalsDown _ _ _ hle]
  unfold evacuatedPrefix at hnodes ⊢
  rw [hnodes, List.takeWhile_idem]

/-- C16. `calculatePerformableDownscale` is idempotent under a fixed, error-free shard lister:
run again on the same input (from any log) it returns the same downscale and no error, and run
on its own output it returns that output unchanged. -/
theorem calculatePerformableDownscale_idempotent (ctx : downscaleContext)
    (downscale : ssetDownscale) (allLeavingNodes : List String) (w w2 : World)
    (hinitial : isInt32 downscale.initialReplicas)
    (htarget : isInt32 downscale.targetReplicas)
    (hok : ∀ node, ∃ b, ctx.IsMigratingData w node allLeavingNodes = Except.ok b)
    (hfixed : ∀ w0 node,
      ctx.IsMigratingData w0 node allLeavingNodes = ctx.IsMigratingData w node allLeavingNodes) :
    (calculatePerformableDownscale ctx downscale allLeavingNodes w2).1 =
        (calculatePerformableDownscale ctx downscale allLeavingNodes w).1 ∧
      (calculatePerformableDownscale ctx
          (calculatePerformableDownscale ctx downscale allLeavingNodes w).1.1
          allLeavingNodes w2).1 =
        (calculatePerformableDownscale ctx downscale allLeavingNodes w).1 := by
  have hnm : notMigrating ctx w2 allLeavingNodes = notMigrating ctx w allLeavingNodes := by
    funext node
    simp only [notMigrating, hfixed w2 node]
  have hev : ∀ d0, evacuatedPrefix ctx w2 allLeavingNodes d0 =
      evacuatedPrefix ctx w allLeavingNodes d0 := by
    intro d0
    simp only [evacuatedPrefix, hnm]
  have hok2 : ∀ node, ∃ b, ctx.IsMigratingData w2 node allLeavingNodes = Except.ok b := by
    intro node
    rw [hfixed w2 node]
    exact hok node
  have hfirst := calculatePerformableDownscale_ok ctx downscale allLeavingNodes w hinitial
    htarget hok
  have hagain := calculatePerformableDownscale_ok ctx downscale allLeavingNodes w2 hinitial
    htarget hok2
  refine ⟨by rw [hagain, hfirst, hev], ?_⟩
  have hle : evacuatedPrefix ctx w allLeavingNodes downscale ≤
      (downscale.initialReplicas - downscale.targetReplicas).toNat := by
    have h1 := (List.takeWhile_sublist (notMigrating ctx w allLeavingNodes)
      (l := downscale.leavingNodeNames)).length_le
    rw [length_leavingNodeNames] at h1
    exact h1
  have hown := calculatePerformableDownscale_ok ctx
    { statefulSet := downscale.statefulSet
      initialReplicas := downscale.initialReplicas
      targetReplicas :=
        downscale.initialReplicas - (evacuatedPrefix ctx w allLeavingNodes downscale : Int)
      finalReplicas := downscale.finalReplicas }
    allLeavingNodes w2 hinitial
    (by
      unfold isInt32 at hinitial htarget ⊢
      simp only
      omega)
    hok2
  rw [hev, evacuatedPrefix_performable] at hown
  rw [hfirst]
  exact hown

/-- Worked example for C16: `es-data` goes from 5 to 2 replicas, `es-data-4` is evacuated and
`es-data-3` is still migrating: the performable downscale, target 4, is returned again from the
log reached after the first run, on the same input and on the performable downscale itself. -/
theorem calculatePerformableDownscale_idempotent_witness :
    (calculatePerformableDownscale (fakeContext 3 (fun node => node == "es-data-3"))
          { statefulSet := dataSset 5, initialReplicas := 5, targetReplicas := 2,
            finalReplicas := 2 } [] [Effect.updateElasticsearchMigrating]).1 =
        (calculatePerformableDownscale (fakeContext 3 (fun node => node == "es-data-3"))
          { statefulSet := dataSset 5, initialReplicas := 5, targetReplicas := 2,
            finalReplicas := 2 } [] []).1 ∧
      (calculatePerformableDownscale (fakeContext 3 (fun node => node == "es-data-3"))
          (calculatePerformableDownscale (fakeContext 3 (fun node => node == "es-data-3"))
            { statefulSet := dataSset 5, initialReplicas := 5, targetReplicas := 2,
              finalReplicas := 2 } [] []).1.1
          [] [Effect.updateElasticsearchMigrating]).1 =
        (calculatePerformableDownscale (fakeContext 3 (fun node => node == "es-data-3"))
          { statefulSet := dataSset 5, initialReplicas := 5, targetReplicas := 2,
            finalReplicas := 2 } [] []).1 :=
  calculatePerformableDownscale_idempotent (fakeContext 3 (fun node => node == "es-data-3"))
    { statefulSet := dataSset 5, initialReplicas := 5, targetReplicas := 2, finalReplicas := 2 }
    [] [] [Effect.updateElasticsearchMigrating] (by decide) (by decide)
    (fun node => ⟨node == "es-data-3", rfl⟩) (fun _ _ => rfl)

end Downscale
